import Mathlib

/-!
Verification development for the ReemTeam backend (Tonk/Reem card game server).

This file gives a shallow embedding, in Lean 4, of the JavaScript source that
the claims refer to:

* `src/models/gameLogic.js` — deck construction, scoring, spread/hit validity,
  the rules engine `processGameAction`, the end-of-game AI-departure pass and
  the state hash;
* `src/models/AiPlayer.js` — the bot driver `runAiTurn`;
* `src/utils/smartQueueManager.js` — wait-time bookkeeping and estimates;
* the wagering service (`WageringService.distributeWinnings`) — modelled as its
  effect on user balances.

JavaScript arrays are modelled as Lean lists in the same order, so `push`
appends at the right end and `pop` removes from the right end.  Machine
numbers are modelled as `Nat`/`Int`/`Rat` (the quantities involved are small
and exact in IEEE doubles).  Fields that can be `undefined` in a payload are
modelled as `Option`.
-/

namespace ReemTeam

/-- The ten ranks used by the game; 8, 9 and 10 are excluded
(`gameLogic.js`, `createDeck`). -/
inductive Rank
  | r2 | r3 | r4 | r5 | r6 | r7 | J | Q | K | ace
  deriving DecidableEq, Repr

/-- The four suits (`gameLogic.js`, `createDeck`). -/
inductive Suit
  | hearts | diamonds | clubs | spades
  deriving DecidableEq, Repr

/-- A card is a rank/suit pair (`gameLogic.js`, card objects `{rank, suit}`). -/
structure Card where
  rank : Rank
  suit : Suit
  deriving DecidableEq, Repr

instance : BEq Card := ⟨fun a b => decide (a = b)⟩

instance : LawfulBEq Card where
  eq_of_beq h := by simpa [BEq.beq] using h
  rfl := by simp [BEq.beq]

/-- The rank order used by `createDeck` (`gameLogic.js` line 6). -/
def deckRanks : List Rank :=
  [Rank.r2, Rank.r3, Rank.r4, Rank.r5, Rank.r6, Rank.r7,
   Rank.J, Rank.Q, Rank.K, Rank.ace]

/-- The suit order used by `createDeck` (`gameLogic.js` line 4). -/
def deckSuits : List Suit :=
  [Suit.hearts, Suit.diamonds, Suit.clubs, Suit.spades]

/-- `createDeck` (`gameLogic.js` lines 3–28): for each suit, for each rank,
push `{rank, suit}`; 40 cards in total. -/
def createDeck : List Card :=
  deckSuits.flatMap fun s => deckRanks.map fun r => { rank := r, suit := s }

/-- Point value of a rank (`calculatePoints`'s `values` map,
`gameLogic.js` lines 54–58): 2–7 face value, J/Q/K = 10, ace = 1. -/
def cardValue : Rank → Nat
  | .r2 => 2 | .r3 => 3 | .r4 => 4 | .r5 => 5
  | .r6 => 6 | .r7 => 7 | .J => 10 | .Q => 10
  | .K => 10 | .ace => 1

/-- `calculatePoints(hand, spreads)` (`gameLogic.js` lines 52–70): sum the
values of the hand cards that do not (by rank and suit) occur in `spreads`. -/
def calculatePoints (hand : List Card) (spreads : List (List Card)) : Nat :=
  let spreadCards := spreads.flatten
  hand.foldl
    (fun total card =>
      if spreadCards.any fun sc => sc.rank == card.rank && sc.suit == card.suit
      then total
      else total + cardValue card.rank)
    0

/-- Position of a rank in `rankSequenceOrder = [ace,2,3,4,5,6,7,J,Q,K]`
(`gameLogic.js` lines 84–85 and 191–192).  Every rank occurs in the order,
so the JS `indexOf` never returns −1 here. -/
def getRankIndex : Rank → Nat
  | .ace => 0 | .r2 => 1 | .r3 => 2 | .r4 => 3 | .r5 => 4
  | .r6 => 5 | .r7 => 6 | .J => 7 | .Q => 8 | .K => 9

/-- Stable insertion of `x` into `l`, placing `x` before the first element `y`
with `le x y`.  Used to model JavaScript's stable `Array.prototype.sort`. -/
def jsInsert (le : α → α → Bool) (x : α) : List α → List α
  | [] => [x]
  | y :: ys => if le x y then x :: y :: ys else y :: jsInsert le x ys

/-- JavaScript's `Array.prototype.sort` with a consistent comparator is a
stable sort; stable sorts are unique, so we model it by stable insertion
sort. -/
def jsStableSort (le : α → α → Bool) : List α → List α
  | [] => []
  | x :: xs => jsInsert le x (jsStableSort le xs)

/-- Adjacent-pairs check used by `isValidSpread` and `isValidHit`
(`gameLogic.js` lines 96–105 and 197–204): every element is the predecessor's
successor. -/
def isConsecutive : List Nat → Bool
  | [] => true
  | [_] => true
  | a :: b :: rest => b == a + 1 && isConsecutive (b :: rest)

/-- `isValidSpread(cards)` (`gameLogic.js` lines 72–112): at least 3 cards and
either all the same rank, or all the same suit and consecutive in the rank
order `[ace,2,3,4,5,6,7,J,Q,K]` after sorting by that order. -/
def isValidSpread (cards : List Card) : Bool :=
  match cards with
  | [] => false
  | c0 :: _ =>
    if cards.length < 3 then false
    else if cards.all fun c => c.rank == c0.rank then true
    else
      let sorted := jsStableSort
        (fun a b => decide (getRankIndex a.rank ≤ getRankIndex b.rank)) cards
      match sorted with
      | [] => false
      | s0 :: _ =>
        if !(sorted.all fun c => c.suit == s0.suit) then false
        else isConsecutive (sorted.map fun c => getRankIndex c.rank)

/-- `isValidHit(card, spread)` (`gameLogic.js` lines 147–221): the spread must
have ≥3 cards; a same-rank spread is extended by a matching rank; a same-suit
spread is extended by a matching suit whose rank makes the sorted rank indices
consecutive. -/
def isValidHit (card : Card) (spread : List Card) : Bool :=
  match spread with
  | [] => false
  | s0 :: _ =>
    if spread.length < 3 then false
    else if spread.all fun c => c.rank == s0.rank then
      card.rank == s0.rank
    else if spread.all fun c => c.suit == s0.suit then
      if card.suit != s0.suit then false
      else
        let allRankIndices :=
          jsStableSort (fun a b => decide (a ≤ b))
            ((spread.map fun c => getRankIndex c.rank) ++ [getRankIndex card.rank])
        isConsecutive allRankIndices
    else false

/-- `getCombinations(arr, size)` (`gameLogic.js` lines 128–143): all
subsequences of the given size, in the source's enumeration order
(index-lexicographic). -/
def getCombinations : Nat → List α → List (List α)
  | 0, _ => [[]]
  | _ + 1, [] => []
  | n + 1, x :: xs =>
    ((getCombinations n xs).map fun c => x :: c) ++ getCombinations (n + 1) xs

/-- `findBestSpread(hand)` (`gameLogic.js` lines 115–126): the first valid
3-card combination, if any. -/
def findBestSpread (hand : List Card) : Option (List Card) :=
  if hand.length < 3 then none
  else (getCombinations 3 hand).find? isValidSpread

/-- Inner loops of `findBestHit` (`gameLogic.js` lines 228–237): first
`(targetIndex, spreadIndex)` whose spread the card can hit. -/
def findHitTarget (card : Card) : List (List (List Card)) → Nat → Option (Nat × Nat)
  | [], _ => none
  | spreads :: rest, t =>
    match spreads.findIdx? fun sp => isValidHit card sp with
    | some si => some (t, si)
    | none => findHitTarget card rest (t + 1)

/-- Outer loop of `findBestHit` (`gameLogic.js` lines 224–240): first
`(cardIndex, targetIndex, spreadIndex)` giving a valid hit. -/
def findBestHitAux (playerSpreads : List (List (List Card))) :
    List Card → Nat → Option (Nat × Nat × Nat)
  | [], _ => none
  | card :: rest, ci =>
    match findHitTarget card playerSpreads 0 with
    | some (ti, si) => some (ci, ti, si)
    | none => findBestHitAux playerSpreads rest (ci + 1)

/-- `findBestHit(hand, playerSpreads)` (`gameLogic.js` lines 224–240). -/
def findBestHit (hand : List Card) (playerSpreads : List (List (List Card))) :
    Option (Nat × Nat × Nat) :=
  findBestHitAux playerSpreads hand 0

/-- A seat's player record, with the fields the rules engine reads and writes
(`initializeGameState`, `gameLogic.js` lines 254–262; `hitCount` and
`hitPenaltyRounds` from the HIT and DROP cases).  A JS-`undefined` `hitCount`
is initialised to `0` before use (line 498) and `undefined > 0` is `false`,
so both counters are modelled as `Nat` starting at `0`. -/
structure Player where
  username : String
  isHuman : Bool
  hitCount : Nat := 0
  hitPenaltyRounds : Nat := 0
  deriving DecidableEq, Repr

/-- The game state created by `initializeGameState` (`gameLogic.js` lines
252–279) plus the `dropped` field the DROP case adds (line 532); `dropped` is
`none` while that key is absent. -/
structure GameState where
  players : List Player
  deck : List Card
  playerHands : List (List Card)
  playerSpreads : List (List (List Card))
  discardPile : List Card
  currentTurn : Nat
  hasDrawnCard : Bool
  gameOver : Bool
  gameStarted : Bool
  winners : List Nat
  winType : Option String
  timestamp : Nat
  stake : Nat
  pot : Nat
  roundScores : List Nat
  isInitialized : Bool
  isLoading : Bool
  dropped : Option Nat := none
  deriving DecidableEq, Repr

/-- The actions handled by `processGameAction`'s `switch` (`gameLogic.js`
lines 326–560); `UNKNOWN_ACTION` stands for any other string, which falls to
the `default` no-op case. -/
inductive GameAction
  | DRAW_CARD | DRAW_DISCARD | DISCARD | SPREAD | HIT | DROP
  | DECLARE_SPECIAL_WIN | UNKNOWN_ACTION
  deriving DecidableEq, Repr

/-- A client payload; each field may be absent (`undefined`).  `cards = none`
also covers a non-array `payload.cards` (the SPREAD case only checks
`Array.isArray`). -/
structure Payload where
  cardIndex : Option Nat := none
  cards : Option (List Card) := none
  targetIndex : Option Nat := none
  spreadIndex : Option Nat := none
  deriving DecidableEq, Repr

/-- `playerHands.map((hand, index) => calculatePoints(hand, playerSpreads[index] || []))`
— the per-seat score list computed in the DISCARD, DROP and
DECLARE_SPECIAL_WIN cases and in `initializeGameState`. -/
def handScores (hands : List (List Card)) (spreads : List (List (List Card))) :
    List Nat :=
  hands.mapIdx fun i hand => calculatePoints hand (spreads.getD i [])

/-- `Math.min(...scores)` on a score list.  The source only evaluates this on
non-empty lists (there is at least one seat); on `[]` JS would give
`Infinity`, and the winner filter below would select nothing either way. -/
def jsMinNat : List Nat → Nat
  | [] => 0
  | x :: xs => xs.foldl Nat.min x

/-- The indices whose score equals `minScore`, in seat order.  Both winner
computations in the source (`DISCARD` stock-empty, lines 377–380, and `DROP`,
line 528) map each score to its index, keep those equal to the minimum, and
collect the indices. -/
def minScoreIndices (scores : List Nat) (minScore : Nat) : List Nat :=
  ((scores.mapIdx fun i sc => (i, sc)).filter fun p => p.2 == minScore).map
    fun p => p.1

/-- The `DRAW_CARD` case (`gameLogic.js` lines 327–337): if the seat has not
drawn and the deck is non-empty, pop the deck onto the acting hand.
(`deck.pop()` takes the last array element.) -/
def applyDrawCard (s : GameState) (t : Nat) : GameState :=
  if s.hasDrawnCard then s
  else
    match s.deck.getLast? with
    | none => s
    | some card =>
      { s with
        deck := s.deck.dropLast
        playerHands := s.playerHands.set t (s.playerHands.getD t [] ++ [card])
        hasDrawnCard := true }

/-- The `DRAW_DISCARD` case (`gameLogic.js` lines 339–349): as `DRAW_CARD`
but popping the discard pile. -/
def applyDrawDiscard (s : GameState) (t : Nat) : GameState :=
  if s.hasDrawnCard then s
  else
    match s.discardPile.getLast? with
    | none => s
    | some card =>
      { s with
        discardPile := s.discardPile.dropLast
        playerHands := s.playerHands.set t (s.playerHands.getD t [] ++ [card])
        hasDrawnCard := true }

/-- The `DISCARD` case (`gameLogic.js` lines 351–403).  Blocked when
`payload.cardIndex` is absent or the acting hand is empty.  Otherwise the
card at `cardIndex` moves to the top of the discard pile (a JS
`splice(i, 1)` with `i` out of range removes nothing and yields `undefined`;
only the card content of the pile is recorded, so nothing is appended then).
Then, in source order: if the deck is empty the hand ends with `STOCK_EMPTY`
(winners = minimal scores); otherwise the turn advances; finally, if the
acting hand is now empty and the game has not ended, `REGULAR_WIN` for the
acting seat. -/
def applyDiscard (s : GameState) (t : Nat) (payload : Payload) : GameState :=
  match payload.cardIndex with
  | none => s
  | some i =>
    let hand := s.playerHands.getD t []
    if hand.length = 0 then s
    else
      let discarded := hand.get? i
      let s1 :=
        { s with
          playerHands := s.playerHands.set t (hand.eraseIdx i)
          discardPile := s.discardPile ++ discarded.toList
          hasDrawnCard := false }
      let s2 :=
        if s1.deck.length == 0 && !s1.gameOver then
          let finalScores := handScores s1.playerHands s1.playerSpreads
          let minScore := jsMinNat finalScores
          { s1 with
            gameOver := true
            winners := minScoreIndices finalScores minScore
            winType := some "STOCK_EMPTY"
            roundScores := finalScores }
        else
          { s1 with currentTurn := (t + 1) % s1.players.length }
      if (s2.playerHands.getD t []).length == 0 && !s2.gameOver then
        { s2 with gameOver := true, winners := [t], winType := some "REGULAR_WIN" }
      else s2

/-- The `SPREAD` case (`gameLogic.js` lines 406–463).  Requires only that
`payload.cards` is an array forming a valid spread — the engine never checks
that the cards are in the acting hand.  The cards are appended as a new
spread for the acting seat, and for each payload card the first hand card
with the same rank and suit (if any) is removed.  A second spread ends the
hand with `REEM`. -/
def applySpread (s : GameState) (t : Nat) (payload : Payload) : GameState :=
  match payload.cards with
  | none => s
  | some cards =>
    if !isValidSpread cards then s
    else
      let spreadClone := s.playerSpreads.getD t [] ++ [cards]
      let newSpreads := s.playerSpreads.mapIdx fun i sp =>
        if i = t then spreadClone else sp
      let newHand := cards.foldl (fun h card => h.erase card)
        (s.playerHands.getD t [])
      let s1 :=
        { s with
          playerSpreads := newSpreads
          playerHands := s.playerHands.set t newHand }
      if (s1.playerSpreads.getD t []).length == 2 then
        { s1 with gameOver := true, winners := [t], winType := some "REEM" }
      else s1

/-- The `HIT` case (`gameLogic.js` lines 465–513).  Rejected (state
unchanged) unless the seat has drawn, all three indices are present, the
card index is in the acting hand, and the target spread exists with ≥3
cards.  A valid hit moves the card onto the target spread, bumps the target
player's `hitCount` and sets `hitPenaltyRounds` to 2 on the first hit and 1
afterwards, then clears `hasDrawnCard` and advances the turn.  An *invalid*
hit (all indices fine but `isValidHit` false) still advances the turn
(line 511). -/
def applyHit (s : GameState) (t : Nat) (payload : Payload) : GameState :=
  if !s.hasDrawnCard then s
  else
    match payload.cardIndex, payload.targetIndex, payload.spreadIndex with
    | some ci, some ti, some si =>
      match (s.playerHands.getD t []).get? ci with
      | none => s
      | some cardToHit =>
        match (s.playerSpreads.getD ti []).get? si with
        | none => s
        | some targetSpread =>
          if targetSpread.length < 3 then s
          else if isValidHit cardToHit targetSpread then
            { s with
              playerHands :=
                s.playerHands.set t ((s.playerHands.getD t []).eraseIdx ci)
              playerSpreads :=
                s.playerSpreads.set ti
                  ((s.playerSpreads.getD ti []).set si (targetSpread ++ [cardToHit]))
              players :=
                match s.players.get? ti with
                | some p =>
                  s.players.set ti
                    { p with
                      hitCount := p.hitCount + 1
                      hitPenaltyRounds := if p.hitCount + 1 = 1 then 2 else 1 }
                | none => s.players
              hasDrawnCard := false
              currentTurn := (t + 1) % s.players.length }
          else
            { s with currentTurn := (t + 1) % s.players.length }
    | _, _, _ => s

/-- The `DROP` case (`gameLogic.js` lines 516–535).  Blocked while the
dropper's `hitPenaltyRounds > 0`.  Otherwise the hand ends: scores exclude
spread cards, winners are the minimal-score seats, and the win type is
`DROP_CAUGHT` exactly when the dropper is strictly above the minimum. -/
def applyDrop (s : GameState) (t : Nat) : GameState :=
  match s.players.get? t with
  | none => s
  | some dropperPlayer =>
    if dropperPlayer.hitPenaltyRounds > 0 then s
    else
      let scores := handScores s.playerHands s.playerSpreads
      let minScore := jsMinNat scores
      let dropperScore := scores.getD t 0
      { s with
        gameOver := true
        winners := minScoreIndices scores minScore
        winType := some (if dropperScore > minScore then "DROP_CAUGHT" else "DROP_WIN")
        dropped := some t
        roundScores := scores }

/-- The `DECLARE_SPECIAL_WIN` case (`gameLogic.js` lines 537–555): ends the
hand with `SPECIAL_WIN` when the acting score is exactly 41 or at most 10. -/
def applyDeclareSpecialWin (s : GameState) (t : Nat) : GameState :=
  let playerHand := s.playerHands.getD t []
  let currentPlayerScore := calculatePoints playerHand (s.playerSpreads.getD t [])
  if currentPlayerScore = 41 ∨ currentPlayerScore ≤ 10 then
    { s with
      gameOver := true
      winners := [t]
      winType := some "SPECIAL_WIN"
      roundScores := handScores s.playerHands s.playerSpreads }
  else s

/-- `handleAiDeparture` (`gameLogic.js` lines 573–610), run whenever an
action leaves `gameOver = true`.  With ≥2 humans and ≥1 bot, all bots are
removed.  The source reassigns `gameState.players` to the filtered array
*before* the re-indexing loop, so `findIndex` runs over the filtered array,
not the original seating: each human's "originalIndex" is just its index in
the filtered array, which silently drops the hands and spreads of seats past
the human count.  We model that faithfully. -/
def handleAiDeparture (gs : GameState) : GameState :=
  let humanPlayers := gs.players.filter fun p => p.isHuman
  let aiPlayers := gs.players.filter fun p => !p.isHuman
  if humanPlayers.length ≥ 2 && aiPlayers.length > 0 then
    let newPlayers := humanPlayers
    let newPlayerHands := newPlayers.foldl
      (fun acc hp =>
        match newPlayers.findIdx? (fun p => p.username == hp.username) with
        | some oi => acc ++ [gs.playerHands.getD oi []]
        | none => acc)
      []
    let newPlayerSpreads := newPlayers.foldl
      (fun acc hp =>
        match newPlayers.findIdx? (fun p => p.username == hp.username) with
        | some oi => acc ++ [gs.playerSpreads.getD oi []]
        | none => acc)
      []
    let newTurn :=
      if (match newPlayers.get? gs.currentTurn with
          | some p => !p.isHuman
          | none => true) then 0
      else gs.currentTurn
    { gs with
      players := newPlayers
      playerHands := newPlayerHands
      playerSpreads := newPlayerSpreads
      currentTurn := newTurn }
  else gs

/-- `processGameAction(state, action, payload)` (`gameLogic.js` lines
301–571).  A terminated game or a missing acting player returns the state
unchanged; otherwise the action's case runs, and if the result is terminal
the AI-departure pass runs on it. -/
def processGameAction (s : GameState) (action : GameAction) (payload : Payload) :
    GameState :=
  if s.gameOver then s
  else
    match s.players.get? s.currentTurn with
    | none => s
    | some _ =>
      let t := s.currentTurn
      let newState :=
        match action with
        | .DRAW_CARD => applyDrawCard s t
        | .DRAW_DISCARD => applyDrawDiscard s t
        | .DISCARD => applyDiscard s t payload
        | .SPREAD => applySpread s t payload
        | .HIT => applyHit s t payload
        | .DROP => applyDrop s t
        | .DECLARE_SPECIAL_WIN => applyDeclareSpecialWin s t
        | .UNKNOWN_ACTION => s
      if newState.gameOver then handleAiDeparture newState else newState

/-- `dealHands(deck, numPlayers)` (`gameLogic.js` lines 42–50): five
round-robin rounds of `hands[j].push(deck.pop())`.  The source mutates the
deck; we return the dealt hands together with the remaining deck.  (Popping
an empty deck would push `undefined`; with 40 cards and ≤4 seats that never
happens, and the model then pushes nothing.) -/
def dealHands (deck : List Card) (numPlayers : Nat) :
    List (List Card) × List Card :=
  (List.range 5).foldl
    (fun acc _ =>
      (List.range numPlayers).foldl
        (fun (st : List (List Card) × List Card) j =>
          match st.2.getLast? with
          | some c => (st.1.set j (st.1.getD j [] ++ [c]), st.2.dropLast)
          | none => st)
        acc)
    (List.replicate numPlayers [], deck)

/-- `initializeGameState` (`gameLogic.js` lines 242–299), parameterised by
the already-shuffled deck (the source shuffles with `Math.random`; the claim
quantifies over all shuffles, so the permutation is an input here) and the
seated players.  After dealing, a seat whose dealt cards score exactly 50
ends the hand immediately with `IMMEDIATE_50_WIN`. -/
def initialGameState (shuffled : List Card) (players : List Player)
    (stake timestamp : Nat) : GameState :=
  let dealt := dealHands shuffled players.length
  let base : GameState :=
    { players := players
      deck := dealt.2
      playerHands := dealt.1
      playerSpreads := List.replicate players.length []
      discardPile := []
      currentTurn := 0
      hasDrawnCard := false
      gameOver := false
      gameStarted := true
      winners := []
      winType := none
      timestamp := timestamp
      stake := stake
      pot := stake * players.length
      roundScores := []
      isInitialized := true
      isLoading := false }
  let initialScores := handScores base.playerHands base.playerSpreads
  match initialScores.findIdx? fun score => score == 50 with
  | some playerWith50 =>
    { base with
      gameOver := true
      winners := [playerWith50]
      winType := some "IMMEDIATE_50_WIN"
      roundScores := initialScores }
  | none => base

/-- All card slots of a state: stock (deck), discard pile, every hand and
every spread, in that order. -/
def allCards (s : GameState) : List Card :=
  s.deck ++ s.discardPile ++ s.playerHands.flatten ++ s.playerSpreads.flatten.flatten

/-- The multiset of cards present anywhere in the state. -/
def cardsOf (s : GameState) : Multiset Card := (allCards s : Multiset Card)

/-- Card conservation (spec §3 invariants 1–2): the cards in the state are
exactly the 40 distinct cards of the deck. -/
def CardConservation (s : GameState) : Prop := cardsOf s = (createDeck : Multiset Card)

/-- The card content of a list of hands (or of one seat's spreads), as a
multiset. -/
def msOfHands (hs : List (List Card)) : Multiset Card :=
  (hs.map Multiset.ofList).sum

/-- The card content of all seats' spreads. -/
def msOfSpreads (ss : List (List (List Card))) : Multiset Card :=
  (ss.map fun sp => msOfHands sp).sum

instance : Inhabited Card := ⟨⟨.r2, .hearts⟩⟩

/-- Draw step of `runAiTurn` (`AiPlayer.js` lines 18–29): take the discard
top if it would hit the bot's own first spread (`spreads[0]`, or `[]` when
the bot has no spread, which never validates), otherwise the deck top if
any; `hasDrawnCard` is set regardless. -/
def aiDrawPhase (s : GameState) (t : Nat) : GameState :=
  let spreads := s.playerSpreads.getD t []
  let canUseDiscard :=
    match s.discardPile.getLast? with
    | some topDiscard => isValidHit topDiscard (spreads.getD 0 [])
    | none => false
  if canUseDiscard then
    { s with
      discardPile := s.discardPile.dropLast
      playerHands :=
        s.playerHands.set t (s.playerHands.getD t [] ++ s.discardPile.getLast?.toList)
      hasDrawnCard := true }
  else
    match s.deck.getLast? with
    | some card =>
      { s with
        deck := s.deck.dropLast
        playerHands := s.playerHands.set t (s.playerHands.getD t [] ++ [card])
        hasDrawnCard := true }
    | none => { s with hasDrawnCard := true }

/-- Spread step of `runAiTurn` (`AiPlayer.js` lines 31–48): lay the first
valid 3-card combination, remove those cards from hand, and end the hand
with `REEM` when this makes two spreads.  (The REEM branch returns from
`runAiTurn`; `runAiTurn` below gates the later phases on `gameOver`.) -/
def aiSpreadPhase (s : GameState) (t : Nat) : GameState :=
  let hand := s.playerHands.getD t []
  let spreads := s.playerSpreads.getD t []
  match findBestSpread hand with
  | none => s
  | some bestSpread =>
    let newSpreads := spreads ++ [bestSpread]
    let newHand := bestSpread.foldl (fun h card => h.erase card) hand
    let s1 :=
      { s with
        playerSpreads := s.playerSpreads.set t newSpreads
        playerHands := s.playerHands.set t newHand }
    if newSpreads.length ≥ 2 then
      { s1 with gameOver := true, winners := [t], winType := some "REEM" }
    else s1

/-- Hit step of `runAiTurn` (`AiPlayer.js` lines 50–56): play the first
valid hit found over the bot's hand and every seat's spreads. -/
def aiHitPhase (s : GameState) (t : Nat) : GameState :=
  let hand := s.playerHands.getD t []
  match findBestHit hand s.playerSpreads with
  | none => s
  | some (ci, ti, si) =>
    match hand.get? ci with
    | none => s
    | some card =>
      { s with
        playerHands := s.playerHands.set t (hand.eraseIdx ci)
        playerSpreads :=
          s.playerSpreads.set ti
            ((s.playerSpreads.getD ti []).set si
              ((s.playerSpreads.getD ti []).getD si [] ++ [card])) }

/-- Drop step of `runAiTurn` (`AiPlayer.js` lines 58–75): if the bot's
current score is at most 5, end the hand as a drop.  Note there is no
`hitPenaltyRounds` check anywhere in this function. -/
def aiDropPhase (s : GameState) (t : Nat) : GameState :=
  let score := calculatePoints (s.playerHands.getD t []) (s.playerSpreads.getD t [])
  if score ≤ 5 then
    let allScores := handScores s.playerHands s.playerSpreads
    let minScore := jsMinNat allScores
    { s with
      gameOver := true
      winners := minScoreIndices allScores minScore
      winType := some (if score > minScore then "DROP_CAUGHT" else "DROP_WIN")
      dropped := some t
      roundScores := allScores }
  else s

/-- `hand.reduce(...)` in `AiPlayer.js` lines 78–83: index of the
highest-value card, first index on ties (strict `>` keeps the earlier
maximum). -/
def worstCardIndex (hand : List Card) : Nat :=
  (hand.mapIdx fun i c => (i, c)).foldl
    (fun maxIdx p =>
      if cardValue p.2.rank > cardValue (hand.getD maxIdx default).rank then p.1
      else maxIdx)
    0

/-- Discard step of `runAiTurn` (`AiPlayer.js` lines 77–99): discard the
highest-value card, clear `hasDrawnCard`, advance the turn, and declare
`REGULAR_WIN` if the hand is now empty. -/
def aiDiscardPhase (s : GameState) (t : Nat) : GameState :=
  let hand := s.playerHands.getD t []
  let worstIndex := worstCardIndex hand
  let s1 :=
    { s with
      playerHands := s.playerHands.set t (hand.eraseIdx worstIndex)
      discardPile := s.discardPile ++ (hand.get? worstIndex).toList
      hasDrawnCard := false
      currentTurn := (t + 1) % s.players.length }
  if (hand.eraseIdx worstIndex).length == 0 then
    { s1 with gameOver := true, winners := [t], winType := some "REGULAR_WIN" }
  else s1

/-- `runAiTurn(gameState)` (`AiPlayer.js` lines 3–102): early return for a
human seat or a finished game, then draw → spread (possible REEM return) →
hit → drop (possible return) → discard.  The source's early `return`s are
modelled by gating the following phases on `gameOver`, which those returns
alone can set. -/
def runAiTurn (s : GameState) : GameState :=
  let t := s.currentTurn
  match s.players.get? t with
  | none => s
  | some player =>
    if player.isHuman || s.gameOver then s
    else
      let s1 := aiDrawPhase s t
      let s2 := aiSpreadPhase s1 t
      if s2.gameOver then s2
      else
        let s3 := aiHitPhase s2 t
        let s4 := aiDropPhase s3 t
        if s4.gameOver then s4
        else aiDiscardPhase s4 t

/-- JavaScript's `Math.round` on a non-negative quantity: round half up. -/
def jsRound (q : ℚ) : ℤ := ⌊q + 1 / 2⌋

/-- `getAverageWaitTime(stake)` (`smartQueueManager.js` lines 127–135):
`null` when no history, else the mean of the last 10 entries (`slice(-10)`),
converted from milliseconds to seconds and rounded. -/
def getAverageWaitTime (history : List ℚ) : Option ℤ :=
  if history.length = 0 then none
  else
    let recentHistory := history.drop (history.length - 10)
    let avgMs := recentHistory.sum / (recentHistory.length : ℚ)
    some (jsRound (avgMs / 1000))

/-- `calculateEstimatedWait(stake, queuePosition)` (`smartQueueManager.js`
lines 113–122).  `avgWaitTime || 30` treats both `null` and `0` as missing
history. -/
def calculateEstimatedWait (history : List ℚ) (queuePosition : Nat) : ℤ :=
  let baseWaitTime : ℚ :=
    match getAverageWaitTime history with
    | none => 30
    | some a => if a = 0 then 30 else (a : ℚ)
  let positionMultiplier : ℚ := max 1 ((queuePosition : ℚ) / 2)
  jsRound (baseWaitTime * positionMultiplier)

/-- `recordWaitTime(stake, waitTimeMs)` (`smartQueueManager.js` lines
140–150): append, then `shift` the oldest entry off when more than 50 are
stored. -/
def recordWaitTime (history : List ℚ) (waitTimeMs : ℚ) : List ℚ :=
  let h := history ++ [waitTimeMs]
  if h.length > 50 then h.drop 1 else h

/-- Modelled from the spec: "Rolling average of last ≤50 actual wait times
for that stake, multiplied by `max(1, pos/2)`; default 30 s until history
exists."  Identical to `calculateEstimatedWait` except that the average
ranges over the last up-to-50 recorded wait times instead of the last 10. -/
def specEstimatedWaitLast50 (history : List ℚ) (queuePosition : Nat) : ℤ :=
  let baseWaitTime : ℚ :=
    if history.length = 0 then 30
    else
      let recent := history.drop (history.length - 50)
      let avgSec : ℤ := jsRound (recent.sum / (recent.length : ℚ) / 1000)
      if avgSec = 0 then 30 else (avgSec : ℚ)
  let positionMultiplier : ℚ := max 1 ((queuePosition : ℚ) / 2)
  jsRound (baseWaitTime * positionMultiplier)

/-- Per-winner payout of `WageringService.distributeWinnings`
(`WageringService` switch, lines 43–72): REEM and DROP_WIN pay the pot,
IMMEDIATE_50_WIN twice the pot, SPECIAL_WIN three times, anything else
(REGULAR_WIN, STOCK_EMPTY) splits the pot among the winners. -/
def winnerPayout (winType : String) (pot : ℚ) (winnersCount : Nat) : ℚ :=
  if winType = "REEM" then pot
  else if winType = "IMMEDIATE_50_WIN" then pot * 2
  else if winType = "SPECIAL_WIN" then pot * 3
  else if winType = "DROP_WIN" then pot
  else pot / winnersCount

/-- Balance effect of `WageringService.distributeWinnings(players, winners,
winType, stake, tableId, gameId)`: for each human player in seat order, add
the winner payout (or 0 for losers) to that username's balance
(`user.cashBalance += payout`).  Every invocation generates fresh
transaction ids (`txn_${uuidv4()}`) and nothing is checked against earlier
transactions, so the balance update is applied unconditionally. -/
def distributeWinnings (players : List Player) (winners : List Nat)
    (winType : String) (stake : ℚ) (balances : String → ℚ) : String → ℚ :=
  let pot : ℚ := stake * players.length
  (players.mapIdx fun i p => (i, p)).foldl
    (fun bal ip =>
      if !ip.2.isHuman then bal
      else
        let payout : ℚ :=
          if winners.contains ip.1 then winnerPayout winType pot winners.length
          else 0
        fun u => if u = ip.2.username then bal u + payout else bal u)
    balances

/-- The total amount `distributeWinnings` adds to a username's balance (a
derived quantity used to state its non-idempotence). -/
def distributeDelta (players : List Player) (winners : List Nat)
    (winType : String) (stake : ℚ) (u : String) : ℚ :=
  let pot : ℚ := stake * players.length
  (players.mapIdx fun i p => (i, p)).foldl
    (fun acc ip =>
      if !ip.2.isHuman then acc
      else
        let payout : ℚ :=
          if winners.contains ip.1 then winnerPayout winType pot winners.length
          else 0
        if u = ip.2.username then acc + payout else acc)
    0

/-- JSON of a boolean. -/
def jsonBool (b : Bool) : String := if b then "true" else "false"

/-- JSON array from already-serialised elements. -/
def jsonArr (elems : List String) : String :=
  "[" ++ String.intercalate "," elems ++ "]"

/-- `JSON.stringify(state, Object.keys(state).sort())` passes the *top-level*
key names as the replacer array, and a replacer array filters the keys of
every object at every depth.  A card `{rank, suit}` contains no top-level
state key, so it serialises as the empty object. -/
def jsonOfCards (cs : List Card) : String :=
  jsonArr (cs.map fun _ => "\x7b\x7d")

/-- A hand array under the replacer: an array of empty objects. -/
def jsonOfHands (hs : List (List Card)) : String := jsonArr (hs.map jsonOfCards)

/-- A spreads array under the replacer. -/
def jsonOfSpreads (ss : List (List (List Card))) : String :=
  jsonArr (ss.map jsonOfHands)

/-- Player objects `{username, chips, isHuman, ...}` contain no top-level
state key either, so each serialises as the empty object. -/
def jsonOfPlayers (ps : List Player) : String :=
  jsonArr (ps.map fun _ => "\x7b\x7d")

/-- JSON of a number array (`winners`, `roundScores`). -/
def jsonOfNats (l : List Nat) : String := jsonArr (l.map toString)

/-- The string produced by `JSON.stringify(state, Object.keys(state).sort())`
(`calculateStateHash`, `gameLogic.js` lines 617–620).  The replacer array is
the sorted top-level key list, which both fixes the output key order
(sorted) and filters every nested object down to those same keys; array
elements are untouched by the replacer.  `dropped` participates only when
the key is present. -/
def serializeGameState (s : GameState) : String :=
  "\x7b" ++
    String.intercalate ","
      (["\"currentTurn\":" ++ toString s.currentTurn,
        "\"deck\":" ++ jsonOfCards s.deck,
        "\"discardPile\":" ++ jsonOfCards s.discardPile]
       ++ (match s.dropped with
           | some d => ["\"dropped\":" ++ toString d]
           | none => [])
       ++ ["\"gameOver\":" ++ jsonBool s.gameOver,
        "\"gameStarted\":" ++ jsonBool s.gameStarted,
        "\"hasDrawnCard\":" ++ jsonBool s.hasDrawnCard,
        "\"isInitialized\":" ++ jsonBool s.isInitialized,
        "\"isLoading\":" ++ jsonBool s.isLoading,
        "\"playerHands\":" ++ jsonOfHands s.playerHands,
        "\"playerSpreads\":" ++ jsonOfSpreads s.playerSpreads,
        "\"players\":" ++ jsonOfPlayers s.players,
        "\"pot\":" ++ toString s.pot,
        "\"roundScores\":" ++ jsonOfNats s.roundScores,
        "\"stake\":" ++ toString s.stake,
        "\"timestamp\":" ++ toString s.timestamp,
        "\"winType\":" ++ (match s.winType with
                           | none => "null"
                           | some w => "\"" ++ w ++ "\""),
        "\"winners\":" ++ jsonOfNats s.winners]) ++
  "\x7d"

/-- `calculateStateHash(state)` (`gameLogic.js` lines 617–620): the SHA-256
hex digest of the normalised serialisation.  The digest primitive is an
external library call, modelled as an arbitrary function of the serialised
string. -/
def calculateStateHash (sha256hex : String → String) (s : GameState) : String :=
  sha256hex (serializeGameState s)

/-! Concrete states used to witness and refute the claims. -/

/-- A human seat. -/
def alice : Player := { username := "alice", isHuman := true }

/-- A second human seat. -/
def bob : Player := { username := "bob", isHuman := true }

/-- Bob after one hit: `hitPenaltyRounds = 2`. -/
def bobPenalized : Player :=
  { username := "bob", isHuman := true, hitCount := 1, hitPenaltyRounds := 2 }

/-- A bot seat carrying a hit penalty. -/
def botPenalized : Player :=
  { username := "bot1", isHuman := false, hitCount := 1, hitPenaltyRounds := 2 }

/-- A two-seat in-progress base state used to build concrete scenarios. -/
def baseState : GameState :=
  { players := [alice, bob]
    deck := []
    playerHands := [[], []]
    playerSpreads := [[], []]
    discardPile := []
    currentTurn := 0
    hasDrawnCard := false
    gameOver := false
    gameStarted := true
    winners := []
    winType := none
    timestamp := 0
    stake := 1
    pot := 2
    roundScores := []
    isInitialized := true
    isLoading := false }

/-- The freshly dealt two-seat hand obtained from the identity shuffle (the
Fisher–Yates shuffle can produce any permutation, the identity included). -/
def dealtState : GameState := initialGameState createDeck [alice, bob] 10 0

/-- A `SPREAD` payload whose cards — `2♥ 3♥ 4♥`, a valid suited run — are in
the stock, not in the acting hand. -/
def spreadNotInHand : Payload :=
  { cards := some [⟨.r2, .hearts⟩, ⟨.r3, .hearts⟩, ⟨.r4, .hearts⟩] }

/-- The empty payload. -/
def noPayload : Payload := {}

/-- Alice to act, Bob carrying `hitPenaltyRounds = 2`; Alice is about to
discard, which starts Bob's turn. -/
def penaltyState : GameState :=
  { baseState with
    players := [alice, bobPenalized]
    deck := [⟨.K, .hearts⟩]
    playerHands := [[⟨.ace, .clubs⟩, ⟨.r3, .clubs⟩], [⟨.K, .spades⟩]] }

/-- One card in the acting hand and an empty stock: the next discard empties
the hand while the stock is empty. -/
def lastCardEmptyStock : GameState :=
  { baseState with
    deck := []
    playerHands := [[⟨.ace, .clubs⟩], [⟨.K, .spades⟩]]
    discardPile := [⟨.r2, .hearts⟩] }

/-- One card in the acting hand with a non-empty stock. -/
def lastCardWithStock : GameState :=
  { lastCardEmptyStock with deck := [⟨.K, .hearts⟩] }

/-- Alice (penalty-free) about to DROP with score 1 against Bob's 20. -/
def dropState : GameState :=
  { baseState with
    deck := [⟨.K, .hearts⟩]
    playerHands := [[⟨.ace, .clubs⟩], [⟨.K, .spades⟩, ⟨.Q, .spades⟩]] }

/-- Alice has drawn and holds an ace; Bob owns a laid spread of kings.  An
ace cannot hit a king spread, so this HIT is invalid. -/
def invalidHitState : GameState :=
  { baseState with
    hasDrawnCard := true
    deck := [⟨.r2, .hearts⟩]
    playerHands := [[⟨.ace, .clubs⟩], [⟨.r4, .diamonds⟩]]
    playerSpreads := [[], [[⟨.K, .spades⟩, ⟨.K, .hearts⟩, ⟨.K, .diamonds⟩]]] }

/-- The payload aiming Alice's ace (hand index 0) at Bob's king spread. -/
def invalidHitPayload : Payload :=
  { cardIndex := some 0, targetIndex := some 1, spreadIndex := some 0 }

/-- A penalised bot to act with a one-card hand; after drawing the `2♥` its
score is 3 ≤ 5. -/
def botDropState : GameState :=
  { baseState with
    players := [botPenalized, alice]
    deck := [⟨.r2, .hearts⟩]
    playerHands := [[⟨.ace, .clubs⟩], [⟨.K, .spades⟩, ⟨.Q, .spades⟩]] }

/-- A terminal state (REEM already declared). -/
def terminalState : GameState :=
  { baseState with
    gameOver := true
    winners := [0]
    winType := some "REEM"
    playerHands := [[⟨.ace, .clubs⟩], [⟨.K, .spades⟩]]
    deck := [⟨.K, .hearts⟩] }

/-- Two states that differ only in the rank of Alice's single hand card. -/
def hashStateA : GameState :=
  { baseState with
    deck := [⟨.K, .hearts⟩]
    playerHands := [[⟨.ace, .clubs⟩], [⟨.K, .spades⟩, ⟨.Q, .spades⟩]] }

/-- As `hashStateA` but Alice holds `5♦` instead of `ace♣`. -/
def hashStateB : GameState :=
  { hashStateA with
    playerHands := [[⟨.r5, .diamonds⟩], [⟨.K, .spades⟩, ⟨.Q, .spades⟩]] }

/-- Eleven recorded waits: one instant assignment followed by ten
one-minute waits (milliseconds). -/
def waitHistory11 : List ℚ :=
  [0, 60000, 60000, 60000, 60000, 60000, 60000, 60000, 60000, 60000, 60000]

/-- A flat starting balance sheet. -/
def balances100 : String → ℚ := fun _ => 100

/-- Alice has drawn and holds the fourth king; Bob owns a king spread. -/
def validHitState : GameState :=
  { baseState with
    hasDrawnCard := true
    playerHands := [[⟨.K, .clubs⟩, ⟨.r4, .diamonds⟩], [⟨.r4, .hearts⟩]]
    playerSpreads := [[], [[⟨.K, .spades⟩, ⟨.K, .hearts⟩, ⟨.K, .diamonds⟩]]] }

/-- The payload hitting Bob's king spread with Alice's `K♣`. -/
def validHitPayload : Payload :=
  { cardIndex := some 0, targetIndex := some 1, spreadIndex := some 0 }

/-- The penalised Bob is to act: his DROP must be rejected. -/
def dropBlockedState : GameState :=
  { baseState with
    players := [bobPenalized, alice]
    playerHands := [[⟨.ace, .clubs⟩], [⟨.K, .spades⟩]] }

/-- A `DISCARD` of the first hand card. -/
def discard0Payload : Payload := { cardIndex := some 0 }

/-! Theorems. -/

/-- Running `handleAiDeparture` never touches the terminal-outcome fields:
only `players`, `playerHands`, `playerSpreads` and `currentTurn` are
reassigned. -/
theorem handleAiDeparture_outcome (gs : GameState) :
    (handleAiDeparture gs).gameOver = gs.gameOver ∧
    (handleAiDeparture gs).winners = gs.winners ∧
    (handleAiDeparture gs).winType = gs.winType ∧
    (handleAiDeparture gs).roundScores = gs.roundScores ∧
    (handleAiDeparture gs).dropped = gs.dropped := by
  unfold handleAiDeparture
  dsimp only
  split <;> exact ⟨rfl, rfl, rfl, rfl, rfl⟩

/-- With fewer than two humans, or with no bot, `handleAiDeparture` is the
identity. -/
theorem handleAiDeparture_of_inert (gs : GameState)
    (h : (gs.players.filter fun p => p.isHuman).length < 2 ∨
         (gs.players.filter fun p => !p.isHuman).length = 0) :
    handleAiDeparture gs = gs := by
  unfold handleAiDeparture
  dsimp only
  rw [if_neg]
  simp only [Bool.and_eq_true, decide_eq_true_eq, not_and]
  intro h2
  rcases h with h | h
  · omega
  · omega

/-- The index/score pairs selected by `minScoreIndices` are exactly the
positions holding the minimum. -/
theorem mem_minScoreIndices (scores : List Nat) (m i : Nat) :
    i ∈ minScoreIndices scores m ↔ scores[i]? = some m := by
  simp only [minScoreIndices, List.mem_map, List.mem_filter,
    List.mapIdx_eq_enum_map, List.mem_enum_iff_getElem?]
  constructor
  · rintro ⟨⟨j, sc⟩, ⟨hmem, heq⟩, rfl⟩
    simp only [beq_iff_eq] at heq
    simpa [heq] using hmem
  · intro h
    exact ⟨(i, m), ⟨by simpa using h, by simp⟩, rfl⟩

/-- No branch of the `DISCARD` case reassigns `players`. -/
theorem applyDiscard_players (s : GameState) (t : Nat) (pay : Payload) :
    (applyDiscard s t pay).players = s.players := by
  unfold applyDiscard
  dsimp only
  repeat' split <;> try rfl

/-- C10: terminal states are absorbing — once `gameOver` is set,
`processGameAction` returns its input unchanged for every action and
payload (`gameLogic.js` lines 310–313 return before any mutation). -/
theorem processGameAction_absorbing (s : GameState) (a : GameAction)
    (p : Payload) (h : s.gameOver = true) : processGameAction s a p = s := by
  simp [processGameAction, h]

/-- Witness for `processGameAction_absorbing`: a concrete finished hand is
untouched by a further draw. -/
theorem processGameAction_absorbing_witness :
    terminalState.gameOver = true ∧
    processGameAction terminalState .DRAW_CARD noPayload = terminalState :=
  ⟨rfl, processGameAction_absorbing terminalState .DRAW_CARD noPayload rfl⟩

/-- C6: DROP semantics.  For an in-progress state whose acting seat has no
hit penalty, DROP terminates the hand; `roundScores` are the spread-excluded
hand scores, `dropped` is the acting seat, the winners are exactly the seats
attaining the minimum score, and the win type is `DROP_CAUGHT` exactly when
the dropper is strictly above the minimum, else `DROP_WIN`. -/
theorem drop_semantics (s : GameState) (dropper : Player) (pay : Payload)
    (hgo : s.gameOver = false)
    (hp : s.players.get? s.currentTurn = some dropper)
    (hpen : dropper.hitPenaltyRounds = 0) :
    (processGameAction s .DROP pay).gameOver = true ∧
    (processGameAction s .DROP pay).roundScores =
      handScores s.playerHands s.playerSpreads ∧
    (processGameAction s .DROP pay).dropped = some s.currentTurn ∧
    (∀ i : Nat, i ∈ (processGameAction s .DROP pay).winners ↔
      (handScores s.playerHands s.playerSpreads)[i]? =
        some (jsMinNat (handScores s.playerHands s.playerSpreads))) ∧
    (processGameAction s .DROP pay).winType =
      some (if jsMinNat (handScores s.playerHands s.playerSpreads) <
              (handScores s.playerHands s.playerSpreads).getD s.currentTurn 0
            then "DROP_CAUGHT" else "DROP_WIN") := by
  have hdrop : processGameAction s .DROP pay =
      handleAiDeparture (applyDrop s s.currentTurn) := by
    unfold processGameAction
    rw [hgo, hp]
    simp only [Bool.false_eq_true, if_false]
    unfold applyDrop
    rw [hp]
    simp [hpen]
  obtain ⟨h1, h2, h3, h4, h5⟩ := handleAiDeparture_outcome (applyDrop s s.currentTurn)
  have happ : applyDrop s s.currentTurn =
      { s with
        gameOver := true
        winners := minScoreIndices (handScores s.playerHands s.playerSpreads)
          (jsMinNat (handScores s.playerHands s.playerSpreads))
        winType := some (if (handScores s.playerHands s.playerSpreads).getD
              s.currentTurn 0 > jsMinNat (handScores s.playerHands s.playerSpreads)
            then "DROP_CAUGHT" else "DROP_WIN")
        dropped := some s.currentTurn
        roundScores := handScores s.playerHands s.playerSpreads } := by
    unfold applyDrop
    rw [hp]
    simp [hpen]
  refine ⟨?_, ?_, ?_, ?_, ?_⟩
  · rw [hdrop, h1, happ]
  · rw [hdrop, h4, happ]
  · rw [hdrop, h5, happ]
  · intro i
    rw [hdrop, h2, happ]
    exact mem_minScoreIndices _ _ i
  · rw [hdrop, h3, happ]

/-- Witness for `drop_semantics`: Alice (score 1) drops against Bob
(score 20); she is the sole winner, `DROP_WIN`, `dropped = 0`. -/
theorem drop_semantics_witness :
    dropState.gameOver = false ∧
    (processGameAction dropState .DROP noPayload).gameOver = true ∧
    (processGameAction dropState .DROP noPayload).dropped = some 0 ∧
    (processGameAction dropState .DROP noPayload).winType = some "DROP_WIN" ∧
    (0 ∈ (processGameAction dropState .DROP noPayload).winners) := by
  have h := drop_semantics dropState alice noPayload rfl rfl rfl
  refine ⟨rfl, h.1, h.2.2.1, ?_, ?_⟩
  · rw [h.2.2.2.2]; rfl
  · exact (h.2.2.2.1 0).mpr (by decide)

/-- Counterexample to C5 as stated: a DISCARD that empties the acting hand
while the stock is empty ends the hand `STOCK_EMPTY`, not `REGULAR_WIN` —
the stock-empty check (`gameLogic.js` line 372) runs before the empty-hand
check (line 396), which is then skipped because the game is already over. -/
theorem discard_regular_win_cx :
    (lastCardEmptyStock.playerHands.getD lastCardEmptyStock.currentTurn []).length = 1 ∧
    lastCardEmptyStock.deck = [] ∧
    (processGameAction lastCardEmptyStock .DISCARD discard0Payload).winType =
      some "STOCK_EMPTY" ∧
    (processGameAction lastCardEmptyStock .DISCARD discard0Payload).winType ≠
      some "REGULAR_WIN" := by
  refine ⟨rfl, rfl, by decide, by decide⟩

/-- C5 (amended): a DISCARD of a valid hand index that empties the acting
hand ends the hand with `REGULAR_WIN` and winners = the acting seat,
*provided the stock is non-empty*; with an empty stock, `STOCK_EMPTY` is
detected first. -/
theorem discard_regular_win (s : GameState) (actor : Player) (pay : Payload)
    (i : Nat)
    (hgo : s.gameOver = false)
    (hp : s.players.get? s.currentTurn = some actor)
    (hidx : pay.cardIndex = some i)
    (hne : (s.playerHands.getD s.currentTurn []).length ≠ 0)
    (hempty : ((s.playerHands.getD s.currentTurn []).eraseIdx i).length = 0)
    (hdeck : s.deck ≠ []) :
    (processGameAction s .DISCARD pay).gameOver = true ∧
    (processGameAction s .DISCARD pay).winType = some "REGULAR_WIN" ∧
    (processGameAction s .DISCARD pay).winners = [s.currentTurn] := by
  have ht : s.currentTurn < s.playerHands.length := by
    by_contra hcon
    exact hne (by simp [List.getD_eq_getElem?_getD,
      List.getElem?_eq_none (le_of_not_lt hcon)])
  have happ : applyDiscard s s.currentTurn pay =
      { s with
        playerHands := s.playerHands.set s.currentTurn
          ((s.playerHands.getD s.currentTurn []).eraseIdx i)
        discardPile := s.discardPile ++
          ((s.playerHands.getD s.currentTurn []).get? i).toList
        hasDrawnCard := false
        currentTurn := (s.currentTurn + 1) % s.players.length
        gameOver := true
        winners := [s.currentTurn]
        winType := some "REGULAR_WIN" } := by
    unfold applyDiscard
    rw [hidx]
    simp only [if_neg hne]
    have hdlen : s.deck.length ≠ 0 := by
      simpa [List.length_eq_zero] using hdeck
    have hget : ((s.playerHands.set s.currentTurn
        ((s.playerHands.getD s.currentTurn []).eraseIdx i)).getD s.currentTurn []) =
        (s.playerHands.getD s.currentTurn []).eraseIdx i := by
      simp [List.getD_eq_getElem?_getD, List.getElem?_set_self ht]
    rw [if_neg (show ¬ ((s.deck.length == 0 && !s.gameOver) = true) by
      simp [hgo, hdlen])]
    have hempty2 : ((s.playerHands[s.currentTurn]?.getD []).eraseIdx i) = [] := by
      rw [← List.getD_eq_getElem?_getD]
      exact List.length_eq_zero.mp hempty
    rw [if_pos (show ((((s.playerHands.set s.currentTurn
        ((s.playerHands.getD s.currentTurn []).eraseIdx i)).getD
          s.currentTurn []).length == 0) && !s.gameOver) = true by
      simp [hgo, List.getD_eq_getElem?_getD, List.getElem?_set_self ht, hempty2])]
  have hproc : processGameAction s .DISCARD pay =
      handleAiDeparture (applyDiscard s s.currentTurn pay) := by
    unfold processGameAction
    rw [hgo, hp]
    simp only [Bool.false_eq_true, if_false]
    rw [happ]
    rfl
  obtain ⟨h1, h2, h3, _, _⟩ :=
    handleAiDeparture_outcome (applyDiscard s s.currentTurn pay)
  refine ⟨?_, ?_, ?_⟩
  · rw [hproc, h1, happ]
  · rw [hproc, h3, happ]
  · rw [hproc, h2, happ]

/-- Witness for `discard_regular_win`: Alice discards her last card while
the stock holds a card; `REGULAR_WIN` for seat 0. -/
theorem discard_regular_win_witness :
    lastCardWithStock.deck ≠ [] ∧
    (processGameAction lastCardWithStock .DISCARD discard0Payload).gameOver = true ∧
    (processGameAction lastCardWithStock .DISCARD discard0Payload).winType =
      some "REGULAR_WIN" ∧
    (processGameAction lastCardWithStock .DISCARD discard0Payload).winners = [0] := by
  have h := discard_regular_win lastCardWithStock alice discard0Payload 0
    rfl rfl rfl (by decide) (by decide) (by decide)
  exact ⟨by decide, h.1, h.2.1, h.2.2⟩

/-- Counterexample to C2 as stated: claim says `hitPenaltyRounds` decrements
by 1 at the start of each of the hit seat's turns; in the code no decrement
exists anywhere.  Concretely, Alice's DISCARD starts penalised Bob's turn
(`currentTurn` becomes 1) and Bob's `hitPenaltyRounds` is still 2. -/
theorem hit_penalty_lifecycle_cx :
    penaltyState.players.get? 1 = some bobPenalized ∧
    bobPenalized.hitPenaltyRounds = 2 ∧
    (processGameAction penaltyState .DISCARD discard0Payload).currentTurn = 1 ∧
    (processGameAction penaltyState .DISCARD discard0Payload).players.get? 1 =
      some bobPenalized := by
  refine ⟨rfl, rfl, by decide, by decide⟩

/-- C2 (amended): (1) a legal HIT on a spread owned by seat `ti` increments
that seat's `hitCount` and sets `hitPenaltyRounds` to 2 on the first hit and
1 on subsequent hits; (2) a DROP by a seat with `hitPenaltyRounds > 0` is
rejected with the state unchanged; (3) `hitPenaltyRounds` never decrements:
a DISCARD — the turn-advancing action that starts the next seat's turn —
leaves every player record unchanged (stated away from the end-of-game AI
departure pass, which can remove bot seats wholesale). -/
theorem hit_penalty_lifecycle :
    (∀ (s : GameState) (pay : Payload) (ci ti si : Nat) (actor tp : Player)
       (card : Card) (sp : List Card),
       s.gameOver = false →
       s.players.get? s.currentTurn = some actor →
       s.hasDrawnCard = true →
       pay.cardIndex = some ci → pay.targetIndex = some ti →
       pay.spreadIndex = some si →
       (s.playerHands.getD s.currentTurn []).get? ci = some card →
       (s.playerSpreads.getD ti []).get? si = some sp →
       ¬ sp.length < 3 →
       isValidHit card sp = true →
       s.players.get? ti = some tp →
       (processGameAction s .HIT pay).players.get? ti =
         some { tp with
                hitCount := tp.hitCount + 1
                hitPenaltyRounds := if tp.hitCount + 1 = 1 then 2 else 1 }) ∧
    (∀ (s : GameState) (pay : Payload) (actor : Player),
       s.gameOver = false →
       s.players.get? s.currentTurn = some actor →
       actor.hitPenaltyRounds > 0 →
       processGameAction s .DROP pay = s) ∧
    (∀ (s : GameState) (pay : Payload),
       ((s.players.filter fun p => p.isHuman).length < 2 ∨
        (s.players.filter fun p => !p.isHuman).length = 0) →
       (processGameAction s .DISCARD pay).players = s.players) := by
  refine ⟨?_, ?_, ?_⟩
  · intro s pay ci ti si actor tp card sp hgo hp hdrawn hci hti hsi hcard hsp hlen
      hvalid htp
    have hlt : ti < s.players.length := by
      by_contra hcon
      rw [List.get?_eq_none.mpr (le_of_not_lt hcon)] at htp
      exact Option.noConfusion htp
    have happ : applyHit s s.currentTurn pay =
        { s with
          playerHands := s.playerHands.set s.currentTurn
            ((s.playerHands.getD s.currentTurn []).eraseIdx ci)
          playerSpreads := s.playerSpreads.set ti
            ((s.playerSpreads.getD ti []).set si (sp ++ [card]))
          players := s.players.set ti
            { tp with
              hitCount := tp.hitCount + 1
              hitPenaltyRounds := if tp.hitCount + 1 = 1 then 2 else 1 }
          hasDrawnCard := false
          currentTurn := (s.currentTurn + 1) % s.players.length } := by
      unfold applyHit
      simp only [hdrawn, hci, hti, hsi, hcard, hsp, htp, Bool.not_true,
        Bool.false_eq_true, if_false]
      rw [if_neg hlen]
      simp [hvalid]
    have hproc : processGameAction s .HIT pay = applyHit s s.currentTurn pay := by
      unfold processGameAction
      rw [hgo, hp]
      simp only [Bool.false_eq_true, if_false]
      rw [happ]
      simp [hgo]
    rw [hproc, happ]
    simp [List.get?_eq_getElem?, List.getElem?_set_self hlt]
  · intro s pay actor hgo hp hpen
    have happ : applyDrop s s.currentTurn = s := by
      unfold applyDrop
      rw [hp]
      simp [hpen]
    unfold processGameAction
    rw [hgo, hp]
    simp only [Bool.false_eq_true, if_false]
    rw [happ, hgo]
    simp
  · intro s pay hinert
    have hpl := applyDiscard_players s s.currentTurn pay
    unfold processGameAction
    dsimp only
    split
    · rfl
    · split
      · rfl
      · split
        · rw [handleAiDeparture_of_inert _ (by rw [hpl]; exact hinert)]
          exact hpl
        · exact hpl

/-- Witness for `hit_penalty_lifecycle`: (1) Alice's `K♣` legally hits Bob's
king spread, taking Bob from no hits to `hitCount = 1`, penalty 2; (2) the
penalised Bob's DROP leaves the state unchanged; (3) Alice's DISCARD leaves
Bob's penalty fields untouched. -/
theorem hit_penalty_lifecycle_witness :
    (processGameAction validHitState .HIT validHitPayload).players.get? 1 =
      some { username := "bob", isHuman := true, hitCount := 1,
             hitPenaltyRounds := 2 } ∧
    processGameAction dropBlockedState .DROP noPayload = dropBlockedState ∧
    (processGameAction penaltyState .DISCARD discard0Payload).players =
      penaltyState.players := by
  refine ⟨?_, ?_, ?_⟩
  · have h := hit_penalty_lifecycle.1 validHitState validHitPayload 0 1 0
      alice bob ⟨.K, .clubs⟩ [⟨.K, .spades⟩, ⟨.K, .hearts⟩, ⟨.K, .diamonds⟩]
      rfl rfl rfl rfl rfl rfl rfl rfl (by decide) (by decide) rfl
    exact h
  · exact hit_penalty_lifecycle.2.1 dropBlockedState noPayload bobPenalized
      rfl rfl (by decide)
  · exact hit_penalty_lifecycle.2.2 penaltyState discard0Payload
      (Or.inr (by decide))

/-- Counterexample to C4 as stated: a HIT whose card does not legally extend
the target spread does *not* leave the state unchanged — the code advances
the turn anyway (`gameLogic.js` line 511).  Alice's ace cannot extend Bob's
king spread, yet `currentTurn` moves from 0 to 1. -/
theorem rejected_actions_cx :
    invalidHitState.currentTurn = 0 ∧
    isValidHit ⟨.ace, .clubs⟩ [⟨.K, .spades⟩, ⟨.K, .hearts⟩, ⟨.K, .diamonds⟩] =
      false ∧
    (processGameAction invalidHitState .HIT invalidHitPayload).currentTurn = 1 ∧
    processGameAction invalidHitState .HIT invalidHitPayload ≠ invalidHitState := by
  refine ⟨rfl, by decide, by decide, by decide⟩

/-- C4 (amended): guard-rejected actions leave the state unchanged — a
DRAW_CARD when already drawn or with an empty stock, and a DRAW_DISCARD when
already drawn or with an empty discard pile, return the input state — but a
HIT that passes the payload checks and fails only hit-validity is not
state-preserving: it advances `currentTurn` (and changes nothing else). -/
theorem rejected_actions :
    (∀ (s : GameState) (pay : Payload),
       s.hasDrawnCard = true ∨ s.deck = [] →
       processGameAction s .DRAW_CARD pay = s) ∧
    (∀ (s : GameState) (pay : Payload),
       s.hasDrawnCard = true ∨ s.discardPile = [] →
       processGameAction s .DRAW_DISCARD pay = s) ∧
    (∀ (s : GameState) (pay : Payload) (ci ti si : Nat) (actor : Player)
       (card : Card) (sp : List Card),
       s.gameOver = false →
       s.players.get? s.currentTurn = some actor →
       s.hasDrawnCard = true →
       pay.cardIndex = some ci → pay.targetIndex = some ti →
       pay.spreadIndex = some si →
       (s.playerHands.getD s.currentTurn []).get? ci = some card →
       (s.playerSpreads.getD ti []).get? si = some sp →
       ¬ sp.length < 3 →
       isValidHit card sp = false →
       processGameAction s .HIT pay =
         { s with currentTurn := (s.currentTurn + 1) % s.players.length }) := by
  refine ⟨?_, ?_, ?_⟩
  · intro s pay h
    have ha : applyDrawCard s s.currentTurn = s := by
      unfold applyDrawCard
      rcases h with h1 | h1
      · simp [h1]
      · rw [h1]
        split <;> rfl
    by_cases hgo : s.gameOver = true
    · simp [processGameAction, hgo]
    · unfold processGameAction
      rw [if_neg hgo]
      cases hget : s.players.get? s.currentTurn with
      | none => rfl
      | some a =>
        dsimp only
        rw [ha, if_neg hgo]
  · intro s pay h
    have ha : applyDrawDiscard s s.currentTurn = s := by
      unfold applyDrawDiscard
      rcases h with h1 | h1
      · simp [h1]
      · rw [h1]
        split <;> rfl
    by_cases hgo : s.gameOver = true
    · simp [processGameAction, hgo]
    · unfold processGameAction
      rw [if_neg hgo]
      cases hget : s.players.get? s.currentTurn with
      | none => rfl
      | some a =>
        dsimp only
        rw [ha, if_neg hgo]
  · intro s pay ci ti si actor card sp hgo hp hdrawn hci hti hsi hcard hsp hlen
      hinvalid
    have happ : applyHit s s.currentTurn pay =
        { s with currentTurn := (s.currentTurn + 1) % s.players.length } := by
      unfold applyHit
      simp only [hdrawn, hci, hti, hsi, hcard, hsp, Bool.not_true,
        Bool.false_eq_true, if_false]
      rw [if_neg hlen]
      simp [hinvalid]
    unfold processGameAction
    rw [hgo, hp]
    simp only [Bool.false_eq_true, if_false]
    rw [happ]
    simp [hgo]

/-- Witness for `rejected_actions`: a second draw is a no-op; a draw from an
empty discard pile is a no-op; Alice's invalid hit leaves everything
unchanged except `currentTurn`, which advances to Bob. -/
theorem rejected_actions_witness :
    processGameAction validHitState .DRAW_CARD noPayload = validHitState ∧
    processGameAction baseState .DRAW_DISCARD noPayload = baseState ∧
    processGameAction invalidHitState .HIT invalidHitPayload =
      { invalidHitState with currentTurn := 1 } := by
  refine ⟨?_, ?_, ?_⟩
  · exact rejected_actions.1 validHitState noPayload (Or.inl rfl)
  · exact rejected_actions.2.1 baseState noPayload (Or.inr rfl)
  · have h := rejected_actions.2.2 invalidHitState invalidHitPayload 0 1 0
      alice ⟨.ace, .clubs⟩ [⟨.K, .spades⟩, ⟨.K, .hearts⟩, ⟨.K, .diamonds⟩]
      rfl rfl rfl rfl rfl rfl rfl rfl (by decide) (by decide)
    rw [h]
    rfl

/-- The draw phase of the bot never touches `gameOver`, `winType` or
`dropped`. -/
theorem aiDrawPhase_keeps (s : GameState) (t : Nat) :
    (aiDrawPhase s t).gameOver = s.gameOver ∧
    (aiDrawPhase s t).winType = s.winType ∧
    (aiDrawPhase s t).dropped = s.dropped := by
  unfold aiDrawPhase
  dsimp only
  split
  · exact ⟨rfl, rfl, rfl⟩
  · split <;> exact ⟨rfl, rfl, rfl⟩

/-- If the bot's spread phase did not end the hand (no REEM), it preserved
`gameOver`, `winType` and `dropped`. -/
theorem aiSpreadPhase_keeps (s : GameState) (t : Nat)
    (h : (aiSpreadPhase s t).gameOver = false) :
    (aiSpreadPhase s t).gameOver = s.gameOver ∧
    (aiSpreadPhase s t).winType = s.winType ∧
    (aiSpreadPhase s t).dropped = s.dropped := by
  unfold aiSpreadPhase at *
  dsimp only at *
  revert h
  split
  · exact fun _ => ⟨rfl, rfl, rfl⟩
  · split
    · intro h
      exact absurd h (by simp)
    · exact fun _ => ⟨rfl, rfl, rfl⟩

/-- The hit phase never touches `gameOver`, `winType` or `dropped`. -/
theorem aiHitPhase_keeps (s : GameState) (t : Nat) :
    (aiHitPhase s t).gameOver = s.gameOver ∧
    (aiHitPhase s t).winType = s.winType ∧
    (aiHitPhase s t).dropped = s.dropped := by
  unfold aiHitPhase
  dsimp only
  split
  · exact ⟨rfl, rfl, rfl⟩
  · split <;> exact ⟨rfl, rfl, rfl⟩

/-- When the bot's score is at most 5, its drop phase ends the hand as a
drop by seat `t`. -/
theorem aiDropPhase_drops (s : GameState) (t : Nat)
    (h : calculatePoints (s.playerHands.getD t [])
          (s.playerSpreads.getD t []) ≤ 5) :
    (aiDropPhase s t).gameOver = true ∧
    (aiDropPhase s t).dropped = some t ∧
    ((aiDropPhase s t).winType = some "DROP_CAUGHT" ∨
     (aiDropPhase s t).winType = some "DROP_WIN") := by
  unfold aiDropPhase
  rw [if_pos h]
  refine ⟨rfl, rfl, ?_⟩
  by_cases hc : calculatePoints (s.playerHands.getD t []) (s.playerSpreads.getD t []) >
      jsMinNat (handScores s.playerHands s.playerSpreads)
  · left
    show some (if calculatePoints (s.playerHands.getD t []) (s.playerSpreads.getD t []) >
      jsMinNat (handScores s.playerHands s.playerSpreads) then "DROP_CAUGHT" else "DROP_WIN") =
      some "DROP_CAUGHT"
    rw [if_pos hc]
  · right
    show some (if calculatePoints (s.playerHands.getD t []) (s.playerSpreads.getD t []) >
      jsMinNat (handScores s.playerHands s.playerSpreads) then "DROP_CAUGHT" else "DROP_WIN") =
      some "DROP_WIN"
    rw [if_neg hc]

/-- When the bot's score exceeds 5, its drop phase does nothing. -/
theorem aiDropPhase_skips (s : GameState) (t : Nat)
    (h : ¬ calculatePoints (s.playerHands.getD t [])
          (s.playerSpreads.getD t []) ≤ 5) :
    aiDropPhase s t = s := by
  unfold aiDropPhase
  rw [if_neg h]

/-- The bot's discard phase appends its highest-value card to the discard
pile (in both the normal and the empty-hand branch). -/
theorem aiDiscardPhase_discardPile (s : GameState) (t : Nat) :
    (aiDiscardPhase s t).discardPile =
      s.discardPile ++
        ((s.playerHands.getD t []).get?
          (worstCardIndex (s.playerHands.getD t []))).toList := by
  unfold aiDiscardPhase
  dsimp only
  split <;> rfl

/-- The bot's discard phase either declares `REGULAR_WIN` or leaves
`winType` alone. -/
theorem aiDiscardPhase_winType (s : GameState) (t : Nat) :
    (aiDiscardPhase s t).winType = some "REGULAR_WIN" ∨
    (aiDiscardPhase s t).winType = s.winType := by
  unfold aiDiscardPhase
  dsimp only
  split
  · exact Or.inl rfl
  · exact Or.inr rfl

/-- Counterexample to C7 as stated: the claim says a bot with
`hitPenaltyRounds > 0` never drops; but `runAiTurn` has no penalty check at
all (`AiPlayer.js` lines 58–75), so a penalised bot whose score is ≤ 5
drops anyway. -/
theorem bot_drop_policy_cx :
    botDropState.players.get? 0 = some botPenalized ∧
    botPenalized.hitPenaltyRounds = 2 ∧
    (runAiTurn botDropState).gameOver = true ∧
    (runAiTurn botDropState).winType = some "DROP_WIN" ∧
    (runAiTurn botDropState).dropped = some 0 := by
  refine ⟨rfl, rfl, by decide, by decide, by decide⟩

/-- C7 (amended): the bot drops exactly when its score at the drop check —
after the draw, spread and hit phases — is at most 5, with **no**
`hitPenaltyRounds` condition (the state's penalty fields are universally
quantified here and never constrained); when the score exceeds 5 it
discards its highest-value card instead. -/
theorem bot_drop_policy (s : GameState) (bot : Player)
    (hp : s.players.get? s.currentTurn = some bot)
    (hbot : bot.isHuman = false)
    (hgo : s.gameOver = false)
    (hwt : s.winType = none)
    (hnoreem : (aiSpreadPhase (aiDrawPhase s s.currentTurn) s.currentTurn).gameOver
      = false) :
    (calculatePoints
        ((aiHitPhase (aiSpreadPhase (aiDrawPhase s s.currentTurn) s.currentTurn)
            s.currentTurn).playerHands.getD s.currentTurn [])
        ((aiHitPhase (aiSpreadPhase (aiDrawPhase s s.currentTurn) s.currentTurn)
            s.currentTurn).playerSpreads.getD s.currentTurn []) ≤ 5 →
      (runAiTurn s).gameOver = true ∧
      (runAiTurn s).dropped = some s.currentTurn ∧
      ((runAiTurn s).winType = some "DROP_CAUGHT" ∨
       (runAiTurn s).winType = some "DROP_WIN")) ∧
    (¬ calculatePoints
        ((aiHitPhase (aiSpreadPhase (aiDrawPhase s s.currentTurn) s.currentTurn)
            s.currentTurn).playerHands.getD s.currentTurn [])
        ((aiHitPhase (aiSpreadPhase (aiDrawPhase s s.currentTurn) s.currentTurn)
            s.currentTurn).playerSpreads.getD s.currentTurn []) ≤ 5 →
      (runAiTurn s).winType ≠ some "DROP_CAUGHT" ∧
      (runAiTurn s).winType ≠ some "DROP_WIN" ∧
      (runAiTurn s).discardPile =
        (aiHitPhase (aiSpreadPhase (aiDrawPhase s s.currentTurn) s.currentTurn)
            s.currentTurn).discardPile ++
          (((aiHitPhase (aiSpreadPhase (aiDrawPhase s s.currentTurn) s.currentTurn)
              s.currentTurn).playerHands.getD s.currentTurn []).get?
            (worstCardIndex
              ((aiHitPhase (aiSpreadPhase (aiDrawPhase s s.currentTurn) s.currentTurn)
                  s.currentTurn).playerHands.getD s.currentTurn []))).toList) := by
  have hrun : runAiTurn s =
      (if (aiDropPhase
            (aiHitPhase (aiSpreadPhase (aiDrawPhase s s.currentTurn) s.currentTurn)
              s.currentTurn) s.currentTurn).gameOver = true then
        aiDropPhase
          (aiHitPhase (aiSpreadPhase (aiDrawPhase s s.currentTurn) s.currentTurn)
            s.currentTurn) s.currentTurn
      else
        aiDiscardPhase
          (aiDropPhase
            (aiHitPhase (aiSpreadPhase (aiDrawPhase s s.currentTurn) s.currentTurn)
              s.currentTurn) s.currentTurn) s.currentTurn) := by
    simp only [runAiTurn, hp, hbot, hgo, hnoreem, Bool.or_self,
      Bool.false_eq_true, if_false]
  have hs3go : (aiHitPhase (aiSpreadPhase (aiDrawPhase s s.currentTurn)
      s.currentTurn) s.currentTurn).gameOver = false := by
    rw [(aiHitPhase_keeps _ _).1, hnoreem]
  have hs3wt : (aiHitPhase (aiSpreadPhase (aiDrawPhase s s.currentTurn)
      s.currentTurn) s.currentTurn).winType = none := by
    rw [(aiHitPhase_keeps _ _).2.1, (aiSpreadPhase_keeps _ _ hnoreem).2.1,
      (aiDrawPhase_keeps _ _).2.1, hwt]
  constructor
  · intro hscore
    obtain ⟨hd1, hd2, hd3⟩ := aiDropPhase_drops _ _ hscore
    rw [hrun, if_pos hd1]
    exact ⟨hd1, hd2, hd3⟩
  · intro hscore
    have hskip := aiDropPhase_skips _ s.currentTurn hscore
    rw [hrun, hskip, if_neg (by rw [hs3go]; simp)]
    refine ⟨?_, ?_, aiDiscardPhase_discardPile _ _⟩
    · rcases aiDiscardPhase_winType (aiHitPhase (aiSpreadPhase
        (aiDrawPhase s s.currentTurn) s.currentTurn) s.currentTurn) s.currentTurn
        with h | h
      · rw [h]; simp
      · rw [h, hs3wt]; simp
    · rcases aiDiscardPhase_winType (aiHitPhase (aiSpreadPhase
        (aiDrawPhase s s.currentTurn) s.currentTurn) s.currentTurn) s.currentTurn
        with h | h
      · rw [h]; simp
      · rw [h, hs3wt]; simp

/-- Witness for `bot_drop_policy`: the penalised bot (`hitPenaltyRounds = 2`)
draws `2♥`, reaches score 3 ≤ 5, and drops. -/
theorem bot_drop_policy_witness :
    (runAiTurn botDropState).gameOver = true ∧
    (runAiTurn botDropState).dropped = some 0 ∧
    ((runAiTurn botDropState).winType = some "DROP_CAUGHT" ∨
     (runAiTurn botDropState).winType = some "DROP_WIN") := by
  have h := bot_drop_policy botDropState botPenalized rfl rfl rfl rfl (by decide)
  exact h.1 (by decide)

/-- The average only ever sees the last 10 stored entries: dropping
everything before them changes nothing. -/
theorem getAverageWaitTime_drop (history : List ℚ) :
    getAverageWaitTime (history.drop (history.length - 10)) =
      getAverageWaitTime history := by
  unfold getAverageWaitTime
  by_cases h : history.length = 0
  · have hnil : history = [] := List.length_eq_zero.mp h
    subst hnil
    rfl
  · have hlen : (history.drop (history.length - 10)).length =
        history.length - (history.length - 10) := List.length_drop _ _
    rw [if_neg h,
      if_neg (show ¬ (history.drop (history.length - 10)).length = 0 by
        rw [hlen]; omega)]
    have h2 : (history.drop (history.length - 10)).length - 10 = 0 := by
      rw [hlen]; omega
    rw [h2, List.drop_zero]

/-- Counterexample to C9 as stated: with eleven recorded waits
(0 ms then ten × 60 000 ms), the code averages only the last ten
(`slice(-10)` in `getAverageWaitTime`) giving a 60 s estimate, while the
claimed average over the last up-to-50 recorded waits gives 55 s. -/
theorem queue_wait_estimate_cx :
    waitHistory11.length = 11 ∧
    calculateEstimatedWait waitHistory11 0 = 60 ∧
    specEstimatedWaitLast50 waitHistory11 0 = 55 := by
  refine ⟨rfl, ?_, ?_⟩
  · norm_num [calculateEstimatedWait, getAverageWaitTime, waitHistory11, jsRound]
  · norm_num [specEstimatedWaitLast50, waitHistory11, jsRound]

/-- C9 (amended): the estimate is the default 30 s (times the position
multiplier `max(1, pos/2)`, rounded) while no history exists; it depends
only on the *last 10* recorded wait times, not the last 50; and the stored
history itself keeps the last up-to-50 recorded wait times. -/
theorem queue_wait_estimate :
    (∀ pos : Nat,
       calculateEstimatedWait [] pos = jsRound (30 * max 1 ((pos : ℚ) / 2))) ∧
    (∀ (history : List ℚ) (pos : Nat),
       calculateEstimatedWait history pos =
         calculateEstimatedWait (history.drop (history.length - 10)) pos) ∧
    (∀ (history : List ℚ) (w : ℚ), history.length ≤ 50 →
       recordWaitTime history w =
         (history ++ [w]).drop ((history ++ [w]).length - 50)) := by
  refine ⟨?_, ?_, ?_⟩
  · intro pos
    rfl
  · intro history pos
    unfold calculateEstimatedWait
    rw [getAverageWaitTime_drop]
  · intro history w hle
    unfold recordWaitTime
    by_cases hl : (history ++ [w]).length > 50
    · rw [if_pos hl]
      have h1 : (history ++ [w]).length - 50 = 1 := by
        simp only [List.length_append, List.length_cons, List.length_nil] at *
        omega
      rw [h1]
    · rw [if_neg hl]
      have h0 : (history ++ [w]).length - 50 = 0 := by
        simp only [List.length_append, List.length_cons, List.length_nil] at *
        omega
      rw [h0, List.drop_zero]

/-- Witness for `queue_wait_estimate` at concrete inputs: empty history at
position 5; the eleven-entry history at position 3; recording onto the
eleven-entry history. -/
theorem queue_wait_estimate_witness :
    calculateEstimatedWait [] 5 = jsRound (30 * max 1 ((5 : ℚ) / 2)) ∧
    calculateEstimatedWait waitHistory11 3 =
      calculateEstimatedWait (waitHistory11.drop 1) 3 ∧
    recordWaitTime waitHistory11 1000 = waitHistory11 ++ [1000] := by
  refine ⟨queue_wait_estimate.1 5, ?_, ?_⟩
  · have h := queue_wait_estimate.2.1 waitHistory11 3
    simpa [waitHistory11] using h
  · have h := queue_wait_estimate.2.2 waitHistory11 1000 (by simp [waitHistory11])
    simpa [waitHistory11] using h

/-- A fold of conditional additive updates, read at `u`, adds the sum of the
per-entry contributions at `u`. -/
theorem foldl_update_read (f : Nat × Player → ℚ) (u : String) :
    ∀ (L : List (Nat × Player)) (bal : String → ℚ),
    (L.foldl
      (fun b ip =>
        if !ip.2.isHuman then b
        else fun v => if v = ip.2.username then b v + f ip else b v)
      bal) u =
      bal u +
        (L.map fun ip =>
          if !ip.2.isHuman then 0
          else if u = ip.2.username then f ip else 0).sum := by
  intro L
  induction L with
  | nil => intro bal; simp
  | cons ip L ih =>
    intro bal
    simp only [List.foldl_cons, List.map_cons, List.sum_cons]
    rw [ih]
    by_cases hh : !ip.2.isHuman
    · rw [if_pos hh, if_pos hh]
      ring
    · rw [if_neg hh, if_neg hh]
      by_cases hu : u = ip.2.username
      · rw [if_pos hu, if_pos hu]
        ring
      · rw [if_neg hu, if_neg hu]
        ring

/-- The accumulator fold defining `distributeDelta`, started anywhere, adds
the same sum. -/
theorem foldl_acc_read (f : Nat × Player → ℚ) (u : String) :
    ∀ (L : List (Nat × Player)) (a : ℚ),
    L.foldl
      (fun acc ip =>
        if !ip.2.isHuman then acc
        else if u = ip.2.username then acc + f ip else acc)
      a =
      a + (L.map fun ip =>
        if !ip.2.isHuman then 0
        else if u = ip.2.username then f ip else 0).sum := by
  intro L
  induction L with
  | nil => intro a; simp
  | cons ip L ih =>
    intro a
    simp only [List.foldl_cons, List.map_cons, List.sum_cons]
    rw [ih]
    by_cases hh : !ip.2.isHuman
    · rw [if_pos hh, if_pos hh]
      ring
    · rw [if_neg hh, if_neg hh]
      by_cases hu : u = ip.2.username
      · rw [if_pos hu, if_pos hu]
        ring
      · rw [if_neg hu, if_neg hu]
        ring

/-- Counterexample to C3 as stated: re-running `distributeWinnings` is not a
no-op.  A REEM payout of the $10 pot to sole human winner alice moves her
balance from 100 to 110; running the same operation again moves it to 120.
(The operation generates a fresh `txn_${uuidv4()}` id on every run and never
checks existing transactions, so no replay is ever detected.) -/
theorem ledger_idempotency_cx :
    distributeWinnings [alice] [0] "REEM" 10 balances100 "alice" = 110 ∧
    distributeWinnings [alice] [0] "REEM" 10
      (distributeWinnings [alice] [0] "REEM" 10 balances100) "alice" = 120 ∧
    (110 : ℚ) ≠ 120 := by
  refine ⟨?_, ?_, by norm_num⟩ <;>
    norm_num [distributeWinnings, winnerPayout, balances100, alice]

/-- C3 (amended): `distributeWinnings` shifts each username's balance by a
fixed amount (`distributeDelta`) that is independent of the current
balances; re-invoking it applies the same shift again, so replaying a ledger
operation is a no-op only when its payout is zero — there is no
idempotency guard keyed on transaction ids (each run generates fresh
`uuidv4` ids). -/
theorem ledger_not_idempotent (players : List Player) (winners : List Nat)
    (winType : String) (stake : ℚ) (balances : String → ℚ) (u : String) :
    distributeWinnings players winners winType stake balances u =
      balances u + distributeDelta players winners winType stake u ∧
    distributeWinnings players winners winType stake
        (distributeWinnings players winners winType stake balances) u =
      balances u + 2 * distributeDelta players winners winType stake u := by
  have hshift : ∀ b : String → ℚ,
      distributeWinnings players winners winType stake b u =
        b u + distributeDelta players winners winType stake u := by
    intro b
    unfold distributeWinnings distributeDelta
    rw [foldl_update_read, foldl_acc_read]
    ring
  refine ⟨hshift balances, ?_⟩
  rw [hshift _, hshift balances]
  ring

/-- Witness for `ledger_not_idempotent` at the concrete REEM scenario: the
shift is the $10 pot, and the double application adds it twice. -/
theorem ledger_not_idempotent_witness :
    distributeWinnings [alice] [0] "REEM" 10 balances100 "alice" =
      balances100 "alice" + distributeDelta [alice] [0] "REEM" 10 "alice" ∧
    distributeWinnings [alice] [0] "REEM" 10
        (distributeWinnings [alice] [0] "REEM" 10 balances100) "alice" =
      balances100 "alice" + 2 * distributeDelta [alice] [0] "REEM" 10 "alice" :=
  ledger_not_idempotent [alice] [0] "REEM" 10 balances100 "alice"

/-- Counterexample to C8 as stated: two states that differ in the rank and
suit of a card in a hand have *equal* serialisations — the replacer array
strips every nested object down to `{}` — and therefore equal hashes under
every digest function (instantiated here with `id`, which stands in for any
injective digest).  The collision is structural, not a negligible-probability
cryptographic event. -/
theorem state_hash_cx :
    hashStateA ≠ hashStateB ∧
    serializeGameState hashStateA = serializeGameState hashStateB ∧
    calculateStateHash id hashStateA = calculateStateHash id hashStateB := by
  refine ⟨by decide, rfl, rfl⟩

/-- C8 (amended): the hash is deterministic, but it depends only on the
state's *shape* — the scalar top-level fields, the number array fields, and
the lengths of the card/player arrays at each nesting level.  Any two states
agreeing on those (even if every card and player differs) serialise
identically and hash identically under every digest function. -/
theorem state_hash_shape (sha256hex : String → String) (s1 s2 : GameState)
    (h1 : s1.currentTurn = s2.currentTurn)
    (h2 : s1.deck.length = s2.deck.length)
    (h3 : s1.discardPile.length = s2.discardPile.length)
    (h4 : s1.dropped = s2.dropped)
    (h5 : s1.gameOver = s2.gameOver)
    (h6 : s1.gameStarted = s2.gameStarted)
    (h7 : s1.hasDrawnCard = s2.hasDrawnCard)
    (h8 : s1.isInitialized = s2.isInitialized)
    (h9 : s1.isLoading = s2.isLoading)
    (h10 : s1.playerHands.map List.length = s2.playerHands.map List.length)
    (h11 : s1.playerSpreads.map (fun sp => sp.map List.length) =
           s2.playerSpreads.map (fun sp => sp.map List.length))
    (h12 : s1.players.length = s2.players.length)
    (h13 : s1.pot = s2.pot)
    (h14 : s1.roundScores = s2.roundScores)
    (h15 : s1.stake = s2.stake)
    (h16 : s1.timestamp = s2.timestamp)
    (h17 : s1.winType = s2.winType)
    (h18 : s1.winners = s2.winners) :
    serializeGameState s1 = serializeGameState s2 ∧
    calculateStateHash sha256hex s1 = calculateStateHash sha256hex s2 := by
  have hc : (jsonOfCards : List Card → String) =
      fun cs => jsonArr (List.replicate cs.length "\x7b\x7d") := by
    funext cs
    simp [jsonOfCards, List.map_const']
  have hhfun : (jsonOfHands : List (List Card) → String) =
      fun hs => jsonArr ((hs.map List.length).map
        fun n : Nat => jsonArr (List.replicate n "\x7b\x7d")) := by
    funext hs
    simp [jsonOfHands, hc, List.map_map, Function.comp_def]
  have hhand : s1.playerHands.map jsonOfCards = s2.playerHands.map jsonOfCards := by
    rw [hc]
    have := congrArg
      (List.map fun n : Nat => jsonArr (List.replicate n "\x7b\x7d")) h10
    simpa [List.map_map, Function.comp_def] using this
  have hspread : s1.playerSpreads.map jsonOfHands =
      s2.playerSpreads.map jsonOfHands := by
    rw [hhfun]
    have := congrArg
      (List.map fun ns : List Nat => jsonArr (ns.map
        fun n : Nat => jsonArr (List.replicate n "\x7b\x7d"))) h11
    simpa [List.map_map, Function.comp_def] using this
  have hser : serializeGameState s1 = serializeGameState s2 := by
    unfold serializeGameState jsonOfCards jsonOfHands jsonOfSpreads
      jsonOfPlayers jsonOfNats
    simp only [List.map_const']
    rw [h1, h2, h3, h4, h5, h6, h7, h8, h9, h12, h13, h14, h15, h16, h17, h18]
    rw [show List.map jsonOfCards s1.playerHands = List.map jsonOfCards s2.playerHands
      from hhand]
    rw [show List.map jsonOfHands s1.playerSpreads = List.map jsonOfHands s2.playerSpreads
      from hspread]
  exact ⟨hser, congrArg sha256hex hser⟩

/-- Witness for `state_hash_shape`: the two concrete states differing only
in one hand card satisfy every shape hypothesis and hash identically. -/
theorem state_hash_shape_witness :
    hashStateA.playerHands ≠ hashStateB.playerHands ∧
    serializeGameState hashStateA = serializeGameState hashStateB ∧
    calculateStateHash id hashStateA = calculateStateHash id hashStateB := by
  have h := state_hash_shape id hashStateA hashStateB rfl rfl rfl rfl rfl rfl
    rfl rfl rfl (by decide) (by decide) rfl rfl rfl rfl rfl rfl rfl
  exact ⟨by decide, h.1, h.2⟩

/-- Replacing one element of a list exchanges its contribution to any
additive measure of the list. -/
theorem sum_map_set {α : Type} {M : Type} [AddCommMonoid M] (μ : α → M) :
    ∀ (l : List α) (t : Nat) (v a : α), l.get? t = some a →
    ((l.set t v).map μ).sum + μ a = (l.map μ).sum + μ v := by
  intro l
  induction l with
  | nil =>
    intro t v a h
    simp at h
  | cons x xs ih =>
    intro t v a h
    cases t with
    | zero =>
      obtain rfl : x = a := Option.some.inj h
      simp only [List.set, List.map_cons, List.sum_cons]
      abel
    | succ n =>
      simp only [List.get?] at h
      have h2 := ih n v a h
      simp only [List.set, List.map_cons, List.sum_cons]
      rw [add_assoc, h2, ← add_assoc]

/-- The coercion of a flattened list of lists is the sum of the coercions. -/
theorem coe_flatten (hs : List (List Card)) :
    ((hs.flatten : List Card) : Multiset Card) = (hs.map Multiset.ofList).sum := by
  induction hs with
  | nil => rfl
  | cons h t ih =>
    simp only [List.flatten_cons, List.map_cons, List.sum_cons, ← Multiset.coe_add,
      ih]

/-- Flattening twice is flattening the once-flattened inner lists. -/
theorem flatten_flatten (ss : List (List (List Card))) :
    ss.flatten.flatten = (ss.map List.flatten).flatten := by
  induction ss with
  | nil => rfl
  | cons a t ih =>
    simp only [List.flatten_cons, List.flatten_append, List.map_cons, ih]

/-- `cardsOf` split into its four zones. -/
theorem cardsOf_parts (s : GameState) :
    cardsOf s = (s.deck : Multiset Card) + (s.discardPile : Multiset Card) +
      msOfHands s.playerHands + msOfSpreads s.playerSpreads := by
  unfold cardsOf allCards msOfHands msOfSpreads
  rw [← Multiset.coe_add, ← Multiset.coe_add, ← Multiset.coe_add]
  rw [coe_flatten, flatten_flatten, coe_flatten]
  congr 1
  rw [List.map_map]
  exact congrArg List.sum (List.map_congr_left fun sp _ => coe_flatten sp)

/-- Removing the `i`-th element and keeping it aside preserves the card
content (a no-op when `i` is out of range). -/
theorem coe_eraseIdx_get? (l : List Card) :
    ∀ i : Nat, ((l.eraseIdx i : List Card) : Multiset Card) +
      ↑((l.get? i).toList) = ↑l := by
  induction l with
  | nil =>
    intro i
    simp
  | cons x xs ih =>
    intro i
    cases i with
    | zero =>
      show ((xs : List Card) : Multiset Card) + ↑([x] : List Card) = ↑(x :: xs)
      rw [Multiset.coe_add]
      exact Multiset.coe_eq_coe.mpr (List.perm_append_singleton x xs)
    | succ n =>
      show ((x :: xs.eraseIdx n : List Card) : Multiset Card) +
        ↑((xs.get? n).toList) = ↑(x :: xs)
      rw [← Multiset.cons_coe, ← Multiset.cons_coe, Multiset.cons_add, ih n]

/-- The SPREAD hand-removal loop is `List.diff`. -/
theorem foldl_erase_eq_diff (cards : List Card) :
    ∀ hand : List Card, cards.foldl (fun h card => h.erase card) hand =
      hand.diff cards := by
  induction cards with
  | nil =>
    intro hand
    rfl
  | cons c cs ih =>
    intro hand
    rw [List.foldl_cons, List.diff_cons]
    exact ih _

/-- When the removed cards are contained in the hand, the removal loop takes
out exactly that multiset. -/
theorem coe_foldl_erase_of_le (cards hand : List Card)
    (h : (cards : Multiset Card) ≤ ↑hand) :
    (↑(cards.foldl (fun h card => h.erase card) hand) : Multiset Card) +
      ↑cards = ↑hand := by
  rw [foldl_erase_eq_diff, ← Multiset.coe_sub, tsub_add_cancel_of_le h]

/-- `mapIdx` with a they-or-me conditional is `List.set`. -/
theorem mapIdx_ite_eq_set {α : Type} (l : List α) (t : Nat) (v : α) :
    (l.mapIdx fun i x => if i = t then v else x) = l.set t v := by
  apply List.ext_getElem?
  intro j
  rw [List.getElem?_mapIdx, List.getElem?_set]
  by_cases hj : t = j
  · subst hj
    by_cases hlt : t < l.length
    · rw [if_pos rfl, if_pos hlt, List.getElem?_eq_getElem hlt]
      simp
    · rw [if_pos rfl, if_neg hlt, List.getElem?_eq_none (le_of_not_lt hlt)]
      rfl
  · rw [if_neg hj]
    cases h : l[j]? with
    | none => rfl
    | some x =>
      simp only [Option.map_some']
      rw [if_neg fun he => hj he.symm]

/-- Exchange lemma for replacing one hand while appending cards to it. -/
theorem msOfHands_set_append (hs : List (List Card)) (t : Nat)
    (extra a : List Card) (h : hs.get? t = some a) :
    msOfHands (hs.set t (a ++ extra)) = msOfHands hs + ↑extra := by
  have h1 : msOfHands (hs.set t (a ++ extra)) + (↑a : Multiset Card) =
      msOfHands hs + ↑(a ++ extra) :=
    sum_map_set Multiset.ofList hs t (a ++ extra) a h
  apply add_right_cancel (b := (↑a : Multiset Card))
  calc msOfHands (hs.set t (a ++ extra)) + (↑a : Multiset Card)
      = msOfHands hs + ↑(a ++ extra) := h1
    _ = (msOfHands hs + ↑extra) + ↑a := by rw [← Multiset.coe_add]; abel

/-- Exchange lemma for replacing one hand by its `eraseIdx`. -/
theorem msOfHands_set_eraseIdx (hs : List (List Card)) (t i : Nat)
    (a : List Card) (h : hs.get? t = some a) :
    msOfHands (hs.set t (a.eraseIdx i)) + ↑((a.get? i).toList) = msOfHands hs := by
  have h1 : msOfHands (hs.set t (a.eraseIdx i)) + (↑a : Multiset Card) =
      msOfHands hs + ↑(a.eraseIdx i) :=
    sum_map_set Multiset.ofList hs t (a.eraseIdx i) a h
  have h2 := coe_eraseIdx_get? a i
  apply add_right_cancel (b := (↑(a.eraseIdx i) : Multiset Card))
  calc (msOfHands (hs.set t (a.eraseIdx i)) + ↑((a.get? i).toList)) +
        (↑(a.eraseIdx i) : Multiset Card)
      = msOfHands (hs.set t (a.eraseIdx i)) +
          ((↑(a.eraseIdx i) : Multiset Card) + ↑((a.get? i).toList)) := by abel
    _ = msOfHands (hs.set t (a.eraseIdx i)) + ↑a := by rw [h2]
    _ = msOfHands hs + ↑(a.eraseIdx i) := h1

/-- Exchange lemma for replacing one seat's spread list. -/
theorem msOfSpreads_set (ss : List (List (List Card))) (t : Nat)
    (v a : List (List Card)) (h : ss.get? t = some a) :
    msOfSpreads (ss.set t v) + msOfHands a = msOfSpreads ss + msOfHands v :=
  sum_map_set msOfHands ss t v a h

/-- An in-range `getD` is the `get?` value. -/
theorem getD_get?_of_lt {α : Type} (l : List α) (t : Nat) (d : α)
    (h : t < l.length) : l.get? t = some (l.getD t d) := by
  rw [List.get?_eq_getElem?, List.getElem?_eq_getElem h,
    List.getD_eq_getElem?_getD, List.getElem?_eq_getElem h]
  rfl

/-- A successful inner lookup bounds the outer index. -/
theorem lt_length_of_getD_get? (ss : List (List (List Card))) (ti si : Nat)
    (sp : List Card) (h : (ss.getD ti []).get? si = some sp) :
    ti < ss.length := by
  by_contra hc
  have h0 : ss.getD ti [] = [] := by
    rw [List.getD_eq_getElem?_getD, List.getElem?_eq_none (le_of_not_lt hc)]
    rfl
  rw [h0] at h
  exact Option.noConfusion h

/-- The DRAW_CARD case moves one card from the stock to the acting hand, so
the card multiset, the players and the game-over flag are unchanged. -/
theorem applyDrawCard_conserves (s : GameState) (t : Nat)
    (ht : t < s.playerHands.length) :
    cardsOf (applyDrawCard s t) = cardsOf s ∧
    (applyDrawCard s t).players = s.players ∧
    (applyDrawCard s t).gameOver = s.gameOver := by
  unfold applyDrawCard
  by_cases hd : s.hasDrawnCard
  · rw [if_pos hd]
    exact ⟨rfl, rfl, rfl⟩
  · rw [if_neg hd]
    cases hlast : s.deck.getLast? with
    | none => exact ⟨rfl, rfl, rfl⟩
    | some c =>
      refine ⟨?_, rfl, rfl⟩
      have hget := getD_get?_of_lt s.playerHands t [] ht
      have hh := msOfHands_set_append s.playerHands t [c] _ hget
      have hne : s.deck ≠ [] := by
        intro h0
        rw [h0] at hlast
        exact Option.noConfusion hlast
      have h3 : s.deck.getLast hne = c := by
        have h2 := List.getLast?_eq_getLast s.deck hne
        rw [h2] at hlast
        exact Option.some.inj hlast
      have hdeck : (s.deck : Multiset Card) =
          ↑s.deck.dropLast + ↑([c] : List Card) := by
        conv_lhs => rw [← List.dropLast_concat_getLast hne, h3]
        rw [← Multiset.coe_add]
      simp only [cardsOf_parts]
      rw [hh, hdeck]
      abel

/-- The DRAW_DISCARD case moves one card from the discard pile to the
acting hand. -/
theorem applyDrawDiscard_conserves (s : GameState) (t : Nat)
    (ht : t < s.playerHands.length) :
    cardsOf (applyDrawDiscard s t) = cardsOf s ∧
    (applyDrawDiscard s t).players = s.players ∧
    (applyDrawDiscard s t).gameOver = s.gameOver := by
  unfold applyDrawDiscard
  by_cases hd : s.hasDrawnCard
  · rw [if_pos hd]
    exact ⟨rfl, rfl, rfl⟩
  · rw [if_neg hd]
    cases hlast : s.discardPile.getLast? with
    | none => exact ⟨rfl, rfl, rfl⟩
    | some c =>
      refine ⟨?_, rfl, rfl⟩
      have hget := getD_get?_of_lt s.playerHands t [] ht
      have hh := msOfHands_set_append s.playerHands t [c] _ hget
      have hne : s.discardPile ≠ [] := by
        intro h0
        rw [h0] at hlast
        exact Option.noConfusion hlast
      have h3 : s.discardPile.getLast hne = c := by
        have h2 := List.getLast?_eq_getLast s.discardPile hne
        rw [h2] at hlast
        exact Option.some.inj hlast
      have hpile : (s.discardPile : Multiset Card) =
          ↑s.discardPile.dropLast + ↑([c] : List Card) := by
        conv_lhs => rw [← List.dropLast_concat_getLast hne, h3]
        rw [← Multiset.coe_add]
      simp only [cardsOf_parts]
      rw [hh, hpile]
      abel

/-- The DISCARD case moves one card (or, out of range, nothing) from the
acting hand to the discard pile; the terminal checks only set scalar
fields. -/
theorem applyDiscard_conserves (s : GameState) (t : Nat) (pay : Payload) :
    cardsOf (applyDiscard s t pay) = cardsOf s := by
  unfold applyDiscard
  cases hidx : pay.cardIndex with
  | none => rfl
  | some i =>
    dsimp only
    by_cases h0 : (s.playerHands.getD t []).length = 0
    · rw [if_pos h0]
    · have ht : t < s.playerHands.length := by
        by_contra hc
        apply h0
        rw [List.getD_eq_getElem?_getD, List.getElem?_eq_none (le_of_not_lt hc)]
        rfl
      have hget := getD_get?_of_lt s.playerHands t [] ht
      have hmain : cardsOf
          { s with
            playerHands := s.playerHands.set t
              ((s.playerHands.getD t []).eraseIdx i)
            discardPile := s.discardPile ++
              ((s.playerHands.getD t []).get? i).toList
            hasDrawnCard := false } = cardsOf s := by
        have hh := msOfHands_set_eraseIdx s.playerHands t i _ hget
        simp only [cardsOf_parts]
        rw [← Multiset.coe_add, ← hh]
        abel
      simp only [if_neg h0]
      split
      · split
        · exact hmain
        · exact hmain
      · split
        · exact hmain
        · exact hmain

/-- The SPREAD case, when the payload cards are contained in the acting
hand, removes them from the hand and lays them as a spread; the card
multiset and the players are unchanged. -/
theorem applySpread_conserves (s : GameState) (t : Nat) (pay : Payload)
    (ht : t < s.playerHands.length) (hts : t < s.playerSpreads.length)
    (hsub : ∀ cards, pay.cards = some cards → isValidSpread cards = true →
      (cards : Multiset Card) ≤ ↑(s.playerHands.getD t [])) :
    cardsOf (applySpread s t pay) = cardsOf s ∧
    (applySpread s t pay).players = s.players := by
  unfold applySpread
  cases hcards : pay.cards with
  | none => exact ⟨rfl, rfl⟩
  | some cards =>
    dsimp only
    by_cases hv : isValidSpread cards = true
    · simp only [hv, Bool.not_true, Bool.false_eq_true, if_false]
      have hgetSp := getD_get?_of_lt s.playerSpreads t [] hts
      have hgetH := getD_get?_of_lt s.playerHands t [] ht
      have hofh : msOfHands (s.playerSpreads.getD t [] ++ [cards]) =
          msOfHands (s.playerSpreads.getD t []) + ↑cards := by
        unfold msOfHands
        rw [List.map_append, List.sum_append]
        simp
      have hY : msOfSpreads (s.playerSpreads.set t
            (s.playerSpreads.getD t [] ++ [cards])) =
          msOfSpreads s.playerSpreads + ↑cards := by
        apply add_right_cancel (b := msOfHands (s.playerSpreads.getD t []))
        calc msOfSpreads (s.playerSpreads.set t
              (s.playerSpreads.getD t [] ++ [cards])) +
              msOfHands (s.playerSpreads.getD t [])
            = msOfSpreads s.playerSpreads +
                msOfHands (s.playerSpreads.getD t [] ++ [cards]) :=
              msOfSpreads_set s.playerSpreads t _ _ hgetSp
          _ = (msOfSpreads s.playerSpreads + ↑cards) +
                msOfHands (s.playerSpreads.getD t []) := by
              rw [hofh]; abel
      have hX : msOfHands (s.playerHands.set t
            (cards.foldl (fun h card => h.erase card)
              (s.playerHands.getD t []))) + ↑cards =
          msOfHands s.playerHands := by
        have h1 : msOfHands (s.playerHands.set t
              (cards.foldl (fun h card => h.erase card)
                (s.playerHands.getD t []))) +
              (↑(s.playerHands.getD t []) : Multiset Card) =
            msOfHands s.playerHands +
              ↑(cards.foldl (fun h card => h.erase card)
                (s.playerHands.getD t [])) :=
          sum_map_set Multiset.ofList s.playerHands t _ _ hgetH
        have h2 := coe_foldl_erase_of_le cards (s.playerHands.getD t [])
          (hsub cards hcards hv)
        apply add_right_cancel
          (b := (↑(cards.foldl (fun h card => h.erase card)
            (s.playerHands.getD t [])) : Multiset Card))
        calc (msOfHands (s.playerHands.set t
              (cards.foldl (fun h card => h.erase card)
                (s.playerHands.getD t []))) + ↑cards) +
              (↑(cards.foldl (fun h card => h.erase card)
                (s.playerHands.getD t [])) : Multiset Card)
            = msOfHands (s.playerHands.set t
                (cards.foldl (fun h card => h.erase card)
                  (s.playerHands.getD t []))) +
                ((↑(cards.foldl (fun h card => h.erase card)
                  (s.playerHands.getD t [])) : Multiset Card) + ↑cards) := by
              abel
          _ = msOfHands (s.playerHands.set t
                (cards.foldl (fun h card => h.erase card)
                  (s.playerHands.getD t []))) +
                ↑(s.playerHands.getD t []) := by rw [h2]
          _ = msOfHands s.playerHands +
                ↑(cards.foldl (fun h card => h.erase card)
                  (s.playerHands.getD t [])) := h1
      have hmain : cardsOf
          { s with
            playerSpreads := s.playerSpreads.mapIdx fun i sp =>
              if i = t then s.playerSpreads.getD t [] ++ [cards] else sp
            playerHands := s.playerHands.set t
              (cards.foldl (fun h card => h.erase card)
                (s.playerHands.getD t [])) } = cardsOf s := by
        simp only [cardsOf_parts]
        rw [mapIdx_ite_eq_set, hY, ← hX]
        abel
      constructor
      · split
        · exact hmain
        · exact hmain
      · split
        · rfl
        · rfl
    · have hv2 : isValidSpread cards = false := by
        cases hb : isValidSpread cards
        · rfl
        · exact absurd hb hv
      rw [hv2]
      exact ⟨rfl, rfl⟩

/-- The HIT case moves one card from the acting hand onto the target spread
(or, rejected, changes at most the turn); cards and the game-over flag are
unchanged. -/
theorem applyHit_conserves (s : GameState) (t : Nat) (pay : Payload)
    (ht : t < s.playerHands.length) :
    cardsOf (applyHit s t pay) = cardsOf s ∧
    (applyHit s t pay).gameOver = s.gameOver := by
  unfold applyHit
  by_cases hd : s.hasDrawnCard
  · simp only [hd, Bool.not_true, Bool.false_eq_true, if_false]
    cases hci : pay.cardIndex with
    | none => exact ⟨rfl, rfl⟩
    | some ci =>
      cases hti : pay.targetIndex with
      | none => exact ⟨rfl, rfl⟩
      | some ti =>
        cases hsi : pay.spreadIndex with
        | none => exact ⟨rfl, rfl⟩
        | some si =>
          dsimp only
          cases hcard : (s.playerHands.getD t []).get? ci with
          | none => exact ⟨rfl, rfl⟩
          | some card =>
            cases hsp : (s.playerSpreads.getD ti []).get? si with
            | none => exact ⟨rfl, rfl⟩
            | some sp =>
              dsimp only
              by_cases hlen : sp.length < 3
              · rw [if_pos hlen]
                exact ⟨rfl, rfl⟩
              · rw [if_neg hlen]
                by_cases hvalid : isValidHit card sp = true
                · rw [if_pos hvalid]
                  refine ⟨?_, rfl⟩
                  have hti_lt := lt_length_of_getD_get? s.playerSpreads ti si
                    sp hsp
                  have hgetSp := getD_get?_of_lt s.playerSpreads ti [] hti_lt
                  have hgetH := getD_get?_of_lt s.playerHands t [] ht
                  have hX : msOfHands (s.playerHands.set t
                        ((s.playerHands.getD t []).eraseIdx ci)) +
                        ↑([card] : List Card) =
                      msOfHands s.playerHands := by
                    have hh := msOfHands_set_eraseIdx s.playerHands t ci _ hgetH
                    rw [hcard] at hh
                    exact hh
                  have hInnerRaw : msOfHands ((s.playerSpreads.getD ti []).set si
                        (sp ++ [card])) +
                        (↑sp : Multiset Card) =
                      msOfHands (s.playerSpreads.getD ti []) + ↑(sp ++ [card]) :=
                    sum_map_set Multiset.ofList (s.playerSpreads.getD ti []) si
                      (sp ++ [card]) sp hsp
                  have hInner : msOfHands ((s.playerSpreads.getD ti []).set si
                        (sp ++ [card])) =
                      msOfHands (s.playerSpreads.getD ti []) +
                        ↑([card] : List Card) := by
                    apply add_right_cancel (b := (↑sp : Multiset Card))
                    calc msOfHands ((s.playerSpreads.getD ti []).set si
                          (sp ++ [card])) + (↑sp : Multiset Card)
                        = msOfHands (s.playerSpreads.getD ti []) +
                            ↑(sp ++ [card]) := hInnerRaw
                      _ = (msOfHands (s.playerSpreads.getD ti []) +
                            ↑([card] : List Card)) + ↑sp := by
                          rw [← Multiset.coe_add]; abel
                  have hY : msOfSpreads (s.playerSpreads.set ti
                        ((s.playerSpreads.getD ti []).set si (sp ++ [card]))) =
                      msOfSpreads s.playerSpreads + ↑([card] : List Card) := by
                    apply add_right_cancel
                      (b := msOfHands (s.playerSpreads.getD ti []))
                    calc msOfSpreads (s.playerSpreads.set ti
                          ((s.playerSpreads.getD ti []).set si (sp ++ [card]))) +
                          msOfHands (s.playerSpreads.getD ti [])
                        = msOfSpreads s.playerSpreads +
                            msOfHands ((s.playerSpreads.getD ti []).set si
                              (sp ++ [card])) :=
                          msOfSpreads_set s.playerSpreads ti _ _ hgetSp
                      _ = (msOfSpreads s.playerSpreads +
                            ↑([card] : List Card)) +
                            msOfHands (s.playerSpreads.getD ti []) := by
                          rw [hInner]; abel
                  simp only [cardsOf_parts]
                  rw [hY, ← hX]
                  abel
                · rw [if_neg hvalid]
                  exact ⟨rfl, rfl⟩
  · have hd2 : s.hasDrawnCard = false := by
      cases hb : s.hasDrawnCard
      · rfl
      · exact absurd hb hd
    rw [hd2]
    exact ⟨rfl, rfl⟩

/-- The DROP case only sets scalar outcome fields. -/
theorem applyDrop_conserves (s : GameState) (t : Nat) :
    cardsOf (applyDrop s t) = cardsOf s ∧ (applyDrop s t).players = s.players := by
  unfold applyDrop
  split
  · exact ⟨rfl, rfl⟩
  · split
    · exact ⟨rfl, rfl⟩
    · exact ⟨rfl, rfl⟩

/-- The DECLARE_SPECIAL_WIN case only sets scalar outcome fields. -/
theorem applyDeclareSpecialWin_conserves (s : GameState) (t : Nat) :
    cardsOf (applyDeclareSpecialWin s t) = cardsOf s ∧
    (applyDeclareSpecialWin s t).players = s.players := by
  unfold applyDeclareSpecialWin
  dsimp only
  split
  · exact ⟨rfl, rfl⟩
  · exact ⟨rfl, rfl⟩

/-- Counterexample to C1 as stated: `processGameAction` has no precondition
requiring the SPREAD payload cards to be in the acting hand (the SPREAD
case checks only `isValidSpread`).  From a freshly dealt hand, a SPREAD of
`2♥ 3♥ 4♥` — cards sitting in the stock — adds them to the acting seat's
spreads without removing anything from the hand, duplicating three cards
(43 card slots instead of 40). -/
theorem card_conservation_cx :
    CardConservation dealtState ∧
    ¬ CardConservation (processGameAction dealtState .SPREAD spreadNotInHand) := by
  constructor
  · unfold CardConservation
    decide
  · unfold CardConservation
    decide

/-- C1 (amended): a single `processGameAction` step preserves the card
multiset provided (i) the acting index is within the hands and spreads
arrays, (ii) for a SPREAD, the payload cards are contained (as a multiset)
in the acting hand — a precondition the engine itself does *not* check —
and (iii) the end-of-game AI-departure pass is inert (fewer than two human
seats, or no bot seats; otherwise that pass drops the evicted bots' hands
and spreads wholesale). -/
theorem card_conservation_step (s : GameState) (a : GameAction) (pay : Payload)
    (ht : s.currentTurn < s.playerHands.length)
    (hts : s.currentTurn < s.playerSpreads.length)
    (hspread : a = .SPREAD → ∀ cards, pay.cards = some cards →
      isValidSpread cards = true →
      (cards : Multiset Card) ≤ ↑(s.playerHands.getD s.currentTurn []))
    (hinert : (s.players.filter fun p => p.isHuman).length < 2 ∨
              (s.players.filter fun p => !p.isHuman).length = 0) :
    cardsOf (processGameAction s a pay) = cardsOf s := by
  by_cases hgo : s.gameOver = true
  · simp [processGameAction, hgo]
  · unfold processGameAction
    rw [if_neg hgo]
    cases hget : s.players.get? s.currentTurn with
    | none => rfl
    | some actor =>
      dsimp only
      cases a with
      | DRAW_CARD =>
        obtain ⟨hc, _, hg⟩ := applyDrawCard_conserves s s.currentTurn ht
        rw [if_neg (show ¬ ((applyDrawCard s s.currentTurn).gameOver = true) by
          rw [hg]; exact hgo)]
        exact hc
      | DRAW_DISCARD =>
        obtain ⟨hc, _, hg⟩ := applyDrawDiscard_conserves s s.currentTurn ht
        rw [if_neg (show ¬ ((applyDrawDiscard s s.currentTurn).gameOver = true) by
          rw [hg]; exact hgo)]
        exact hc
      | DISCARD =>
        have hc := applyDiscard_conserves s s.currentTurn pay
        have hpl := applyDiscard_players s s.currentTurn pay
        split
        · rw [handleAiDeparture_of_inert _ (by rw [hpl]; exact hinert)]
          exact hc
        · exact hc
      | SPREAD =>
        obtain ⟨hc, hpl⟩ := applySpread_conserves s s.currentTurn pay ht hts
          (hspread rfl)
        split
        · rw [handleAiDeparture_of_inert _ (by rw [hpl]; exact hinert)]
          exact hc
        · exact hc
      | HIT =>
        obtain ⟨hc, hg⟩ := applyHit_conserves s s.currentTurn pay ht
        rw [if_neg (show ¬ ((applyHit s s.currentTurn pay).gameOver = true) by
          rw [hg]; exact hgo)]
        exact hc
      | DROP =>
        obtain ⟨hc, hpl⟩ := applyDrop_conserves s s.currentTurn
        split
        · rw [handleAiDeparture_of_inert _ (by rw [hpl]; exact hinert)]
          exact hc
        · exact hc
      | DECLARE_SPECIAL_WIN =>
        obtain ⟨hc, hpl⟩ := applyDeclareSpecialWin_conserves s s.currentTurn
        split
        · rw [handleAiDeparture_of_inert _ (by rw [hpl]; exact hinert)]
          exact hc
        · exact hc
      | UNKNOWN_ACTION =>
        rw [if_neg hgo]

/-- Witness for `card_conservation_step`: drawing from the stock in the
freshly dealt two-human hand moves a card without gain or loss. -/
theorem card_conservation_step_witness :
    cardsOf (processGameAction dealtState .DRAW_CARD noPayload) =
      cardsOf dealtState :=
  card_conservation_step dealtState .DRAW_CARD noPayload (by decide) (by decide)
    (fun h => absurd h (by decide)) (Or.inr (by decide))

end ReemTeam
